import Mathlib

/-!
Verification development for the SentimentAnalysis monitoring pipeline.

The Python sources under `app/core` and `app/worker` are shallowly embedded
below: pure helpers become Lean functions on `List Char` / `String`, the
Celery tasks become explicit state transformers over a `Db` record, and the
external world (network fetch, language detection, the external classifier)
is passed in as an explicit environment of oracle functions.  Scores that
the Python code keeps in IEEE floats are modelled as rationals; every
equality we prove about them is on the exact-value paths of the code
(early returns and literal constants), where float and rational semantics
agree.  ASCII string behaviour is modelled exactly; Unicode-only behaviours
(locale-specific case folding, NFKC netloc validation, multi-byte
percent-decoding) are noted at the definitions they would affect.
-/

set_option maxRecDepth 16384

/-! ## Python string primitives (on lists of characters) -/

abbrev Chars := List Char

def toChars (s : String) : Chars := s.data

/-- ASCII whitespace recognised by Python `str.split` / `str.strip` / `\s`. -/
def isPySpace (c : Char) : Bool :=
  c = ' ' || c = '\t' || c = '\n' || c = '\r' || c = '\x0b' || c = '\x0c'

/-- ASCII lower-casing, as `str.lower` acts on the ASCII range. -/
def pyLowerChar (c : Char) : Char :=
  if 65 ≤ c.toNat && c.toNat ≤ 90 then Char.ofNat (c.toNat + 32) else c

def pyLower (l : Chars) : Chars := l.map pyLowerChar

/-- Python `str.strip()` with no argument: drop whitespace at both ends. -/
def pyStrip (l : Chars) : Chars :=
  ((l.dropWhile isPySpace).reverse.dropWhile isPySpace).reverse

def pyLowerS (s : String) : String := String.mk (pyLower s.data)

def pyStripS (s : String) : String := String.mk (pyStrip s.data)

/-- The `.lower().strip()` chain used throughout `deduplication.py`. -/
def pyLowerStrip (s : String) : String := pyStripS (pyLowerS s)

def pySplitWsAux : Chars → Chars → List Chars
  | [], acc => if acc = [] then [] else [acc.reverse]
  | c :: rest, acc =>
    if isPySpace c then
      if acc = [] then pySplitWsAux rest []
      else acc.reverse :: pySplitWsAux rest []
    else pySplitWsAux rest (c :: acc)

/-- Python `str.split()` with no argument: words between whitespace runs. -/
def pySplitWs (l : Chars) : List Chars := pySplitWsAux l []

/-- Python `" ".join(words)`. -/
def pyJoinSpace : List Chars → Chars
  | [] => []
  | [w] => w
  | w :: ws => w ++ ' ' :: pyJoinSpace ws

/-- Python substring containment (`needle in hay`). -/
def charsInfix (needle hay : Chars) : Bool :=
  (List.range (hay.length + 1)).any (fun i => (hay.drop i).take needle.length == needle)

/-- Python `in` on strings. -/
def pyIn (needle hay : String) : Bool := charsInfix needle.data hay.data

/-- Splits on every occurrence of characters satisfying `p` (single-char split). -/
def splitOnPredAux (p : Char → Bool) : Chars → Chars → List Chars
  | [], acc => [acc.reverse]
  | c :: rest, acc =>
    if p c then acc.reverse :: splitOnPredAux p rest []
    else splitOnPredAux p rest (c :: acc)

def splitOnPred (p : Char → Bool) (l : Chars) : List Chars := splitOnPredAux p l []

/-- Python `s.split(sep)` for a single-character separator. -/
def splitOnChar (sep : Char) (l : Chars) : List Chars := splitOnPred (· = sep) l

/-- Joins a list of words with a single-character separator. -/
def joinChar (sep : Char) : List Chars → Chars
  | [] => []
  | [w] => w
  | w :: ws => w ++ sep :: joinChar sep ws

/-- First-occurrence duplicate removal; models Python's `list(set(...))`,
whose element order is unspecified and only ever consumed through
membership tests downstream. -/
def dedupFirstAux (seen : List String) : List String → List String
  | [] => []
  | x :: xs => if x ∈ seen then dedupFirstAux seen xs else x :: dedupFirstAux (x :: seen) xs

def dedupFirst (l : List String) : List String := dedupFirstAux [] l

/-! ## UTF-8 and SHA-256 (the `hashlib.sha256(...).hexdigest()` call) -/

/-- UTF-8 encoding of one scalar value, written with `/` and `%` so that the
byte bounds are arithmetic facts. -/
def utf8EncodeChar (c : Char) : List Nat :=
  let n := c.toNat
  if n < 128 then [n]
  else if n < 2048 then [192 + n / 64, 128 + n % 64]
  else if n < 65536 then [224 + n / 4096, 128 + (n / 64) % 64, 128 + n % 64]
  else [240 + n / 262144, 128 + (n / 4096) % 64, 128 + (n / 64) % 64, 128 + n % 64]

def utf8Bytes (l : Chars) : List Nat :=
  l.foldr (fun c acc => utf8EncodeChar c ++ acc) []

def w32 (x : Nat) : Nat := x % 4294967296

/-- 32-bit right rotation; the two disjoint parts are combined with `+`. -/
def rotr32 (n x : Nat) : Nat := (x / 2 ^ n) + (x % 2 ^ n) * 2 ^ (32 - n)

def shaBig0 (x : Nat) : Nat := rotr32 2 x ^^^ rotr32 13 x ^^^ rotr32 22 x

def shaBig1 (x : Nat) : Nat := rotr32 6 x ^^^ rotr32 11 x ^^^ rotr32 25 x

def shaSmall0 (x : Nat) : Nat := rotr32 7 x ^^^ rotr32 18 x ^^^ x / 8

def shaSmall1 (x : Nat) : Nat := rotr32 17 x ^^^ rotr32 19 x ^^^ x / 1024

def shaCh (e f g : Nat) : Nat := (e &&& f) ^^^ ((4294967295 - e) &&& g)

def shaMaj (a b c : Nat) : Nat := (a &&& b) ^^^ (a &&& c) ^^^ (b &&& c)

def shaK : List Nat :=
  [1116352408, 1899447441, 3049323471, 3921009573, 961987163, 1508970993, 2453635748, 2870763221,
   3624381080, 310598401, 607225278, 1426881987, 1925078388, 2162078206, 2614888103, 3248222580,
   3835390401, 4022224774, 264347078, 604807628, 770255983, 1249150122, 1555081692, 1996064986,
   2554220882, 2821834349, 2952996808, 3210313671, 3336571891, 3584528711, 113926993, 338241895,
   666307205, 773529912, 1294757372, 1396182291, 1695183700, 1986661051, 2177026350, 2456956037,
   2730485921, 2820302411, 3259730800, 3345764771, 3516065817, 3600352804, 4094571909, 275423344,
   430227734, 506948616, 659060556, 883997877, 958139571, 1322822218, 1537002063, 1747873779,
   1955562222, 2024104815, 2227730452, 2361852424, 2428436474, 2756734187, 3204031479, 3329325298]

def shaH0 : List Nat :=
  [1779033703, 3144134277, 1013904242, 2773480762, 1359893119, 2600822924, 528734635, 1541459225]

def sha256Pad (msg : List Nat) : List Nat :=
  let len := msg.length
  let zeros := (120 - (len + 1) % 64) % 64
  msg ++ [128] ++ List.replicate zeros 0
    ++ (List.range 8).map (fun i => (8 * len / 2 ^ (8 * (7 - i))) % 256)

def bytesToWords : List Nat → List Nat
  | b0 :: b1 :: b2 :: b3 :: rest => (((b0 * 256 + b1) * 256 + b2) * 256 + b3) :: bytesToWords rest
  | _ => []

def shaExtend (ws : List Nat) : List Nat :=
  (List.range 48).foldl
    (fun acc _ =>
      let n := acc.length
      acc ++ [w32 (shaSmall1 (acc.getD (n - 2) 0) + acc.getD (n - 7) 0
                   + shaSmall0 (acc.getD (n - 15) 0) + acc.getD (n - 16) 0)])
    ws

def shaRound (st : Nat × Nat × Nat × Nat × Nat × Nat × Nat × Nat) (wk : Nat × Nat) :
    Nat × Nat × Nat × Nat × Nat × Nat × Nat × Nat :=
  match st, wk with
  | (a, b, c, d, e, f, g, h), (w, k) =>
    let t1 := w32 (h + shaBig1 e + shaCh e f g + k + w)
    let t2 := w32 (shaBig0 a + shaMaj a b c)
    (w32 (t1 + t2), a, b, c, w32 (d + t1), e, f, g)

def shaCompressBlock (h : List Nat) (block : List Nat) : List Nat :=
  let ws := shaExtend (bytesToWords block)
  let init := (h.getD 0 0, h.getD 1 0, h.getD 2 0, h.getD 3 0,
               h.getD 4 0, h.getD 5 0, h.getD 6 0, h.getD 7 0)
  match (ws.zip shaK).foldl shaRound init with
  | (a, b, c, d, e, f, g, hh) =>
    [w32 (h.getD 0 0 + a), w32 (h.getD 1 0 + b), w32 (h.getD 2 0 + c), w32 (h.getD 3 0 + d),
     w32 (h.getD 4 0 + e), w32 (h.getD 5 0 + f), w32 (h.getD 6 0 + g), w32 (h.getD 7 0 + hh)]

def sha256Chunks : Nat → List Nat → List (List Nat)
  | 0, _ => []
  | _, [] => []
  | fuel + 1, l => l.take 64 :: sha256Chunks fuel (l.drop 64)

def hexDigitLower (n : Nat) : Char :=
  if n < 10 then Char.ofNat (48 + n) else Char.ofNat (87 + n)

def word32HexChars (x : Nat) : Chars :=
  (List.range 8).map (fun i => hexDigitLower ((x / 2 ^ (4 * (7 - i))) % 16))

def sha256HexOfBytes (msg : List Nat) : String :=
  let padded := sha256Pad msg
  let digest := (sha256Chunks padded.length padded).foldl shaCompressBlock shaH0
  String.mk (digest.foldr (fun w acc => word32HexChars w ++ acc) [])

/-- Embeds `compute_content_hash` from `app/core/deduplication.py`:
normalise as `" ".join(content.lower().split())`, then SHA-256 hexdigest of
the UTF-8 bytes. -/
def compute_content_hash (content : String) : String :=
  let normalized := pyJoinSpace (pySplitWs (pyLower content.data))
  sha256HexOfBytes (utf8Bytes normalized)

/-! ## URL canonicalization (`app/core/url_utils.py` and the parts of
`urllib.parse` it calls).  The parser follows CPython's `urlsplit` /
`urlparse`: strip leading C0-control/space characters, remove tab/CR/LF,
split off an ASCII-letter-initial scheme, split the netloc up to the first
of `/?#`, raise `ValueError` (modelled as `Except.error`) on an unmatched
IPv6 bracket, then split fragment and query.  The non-ASCII NFKC netloc
check, which can also raise, is modelled as passing (it is the identity on
ASCII netlocs).  Percent-decoding is modelled byte-wise, exact for ASCII. -/

def schemeChar (c : Char) : Bool :=
  c.isAlpha || c.isDigit || c = '+' || c = '-' || c = '.'

def isC0OrSpace (c : Char) : Bool := c.toNat ≤ 32

def isUnsafeUrlByte (c : Char) : Bool := c = '\t' || c = '\r' || c = '\n'

def notNetlocDelim (c : Char) : Bool := !(c = '/' || c = '?' || c = '#')

structure UrlSplitResult where
  scheme : Chars
  netloc : Chars
  path : Chars
  query : Chars
  fragment : Chars
deriving Repr, DecidableEq

def urlsplitPre (url0 : Chars) : Chars :=
  (url0.dropWhile isC0OrSpace).filter (fun c => !isUnsafeUrlByte c)

def urlsplitScheme (url : Chars) : Chars × Chars :=
  match url.findIdx? (· = ':') with
  | some n =>
    if 0 < n && (url.headD ' ').isAlpha && (url.take n).all schemeChar then
      (pyLower (url.take n), url.drop (n + 1))
    else ([], url)
  | none => ([], url)

def urlsplitNetloc (url : Chars) : Chars × Chars :=
  if url.take 2 = ['/', '/'] then
    ((url.drop 2).takeWhile notNetlocDelim, (url.drop 2).dropWhile notNetlocDelim)
  else ([], url)

def bracketsMismatch (netloc : Chars) : Bool :=
  (netloc.contains '[' && !netloc.contains ']') || (netloc.contains ']' && !netloc.contains '[')

def urlsplitFrag (url : Chars) : Chars × Chars :=
  if url.contains '#' then (url.takeWhile (· ≠ '#'), (url.dropWhile (· ≠ '#')).drop 1)
  else (url, [])

def urlsplitQuery (url : Chars) : Chars × Chars :=
  if url.contains '?' then (url.takeWhile (· ≠ '?'), (url.dropWhile (· ≠ '?')).drop 1)
  else (url, [])

def pyUrlsplit (url0 : Chars) : Except Unit UrlSplitResult :=
  let url1 := urlsplitPre url0
  let sp := urlsplitScheme url1
  let np := urlsplitNetloc sp.2
  if bracketsMismatch np.1 then .error ()
  else
    let fp := urlsplitFrag np.2
    let qp := urlsplitQuery fp.1
    .ok ⟨sp.1, np.1, qp.1, qp.2, fp.2⟩

def usesParamsSchemes : List Chars :=
  [[], toChars "ftp", toChars "hdl", toChars "prospero", toChars "http", toChars "imap",
   toChars "https", toChars "shttp", toChars "rtsp", toChars "rtspu", toChars "sip",
   toChars "sips", toChars "mms", toChars "sftp", toChars "tel"]

def listRfindIdx (l : Chars) (c : Char) : Option Nat :=
  match l.reverse.findIdx? (· = c) with
  | some j => some (l.length - 1 - j)
  | none => none

def listFindIdxFrom (l : Chars) (c : Char) (start : Nat) : Option Nat :=
  match (l.drop start).findIdx? (· = c) with
  | some j => some (start + j)
  | none => none

def pySplitParams (url : Chars) : Chars × Chars :=
  if url.contains '/' then
    match listFindIdxFrom url ';' ((listRfindIdx url '/').getD 0) with
    | some i => (url.take i, url.drop (i + 1))
    | none => (url, [])
  else
    match url.findIdx? (· = ';') with
    | some i => (url.take i, url.drop (i + 1))
    | none => (url, [])

structure UrlParseResult where
  scheme : Chars
  netloc : Chars
  path : Chars
  params : Chars
  query : Chars
  fragment : Chars
deriving Repr, DecidableEq

def pyUrlparse (url : Chars) : Except Unit UrlParseResult :=
  match pyUrlsplit url with
  | .error e => .error e
  | .ok r =>
    if r.path.contains ';' && usesParamsSchemes.contains r.scheme then
      let pp := pySplitParams r.path
      .ok ⟨r.scheme, r.netloc, pp.1, pp.2, r.query, r.fragment⟩
    else
      .ok ⟨r.scheme, r.netloc, r.path, [], r.query, r.fragment⟩

def isHexDigitPy (c : Char) : Bool :=
  ('0' ≤ c && c ≤ '9') || ('a' ≤ c && c ≤ 'f') || ('A' ≤ c && c ≤ 'F')

def hexVal (c : Char) : Nat :=
  if '0' ≤ c && c ≤ '9' then c.toNat - 48
  else if 'a' ≤ c && c ≤ 'f' then c.toNat - 87
  else if 'A' ≤ c && c ≤ 'F' then c.toNat - 55
  else 0

/-- Python `urllib.parse.unquote`, modelled byte-wise (exact on ASCII;
multi-byte UTF-8 re-assembly is not modelled, and no claim exercises it). -/
def pyUnquote : Chars → Chars
  | [] => []
  | '%' :: a :: b :: rest =>
    if isHexDigitPy a && isHexDigitPy b then
      Char.ofNat (16 * hexVal a + hexVal b) :: pyUnquote rest
    else '%' :: pyUnquote (a :: b :: rest)
  | c :: rest => c :: pyUnquote rest

def pyUnquotePlus (l : Chars) : Chars :=
  pyUnquote (l.map (fun c => if c = '+' then ' ' else c))

/-- The pair list built by `parse_qsl(qs, keep_blank_values=True)`. -/
def qslPairs (qs : Chars) : List (Chars × Chars) :=
  (splitOnChar '&' qs).foldr
    (fun nv acc =>
      if nv = [] then acc
      else
        match nv.findIdx? (· = '=') with
        | some i => (pyUnquotePlus (nv.take i), pyUnquotePlus (nv.drop (i + 1))) :: acc
        | none => (pyUnquotePlus nv, []) :: acc)
    []

def qsGroupInsert (acc : List (Chars × List Chars)) (k : Chars) (v : Chars) :
    List (Chars × List Chars) :=
  match acc with
  | [] => [(k, [v])]
  | (k0, vs) :: rest =>
    if k0 = k then (k0, vs ++ [v]) :: rest else (k0, vs) :: qsGroupInsert rest k v

/-- `parse_qs(qs, keep_blank_values=True)`: a dict in key-insertion order,
values grouped in order of appearance. -/
def pyParseQs (qs : Chars) : List (Chars × List Chars) :=
  (qslPairs qs).foldl (fun acc kv => qsGroupInsert acc kv.1 kv.2) []

def pyStrLt : Chars → Chars → Bool
  | [], [] => false
  | [], _ :: _ => true
  | _ :: _, [] => false
  | a :: as, b :: bs =>
    if a.toNat < b.toNat then true
    else if a.toNat = b.toNat then pyStrLt as bs
    else false

def insertSortedByKey (x : Chars × List Chars) :
    List (Chars × List Chars) → List (Chars × List Chars)
  | [] => [x]
  | y :: ys => if pyStrLt y.1 x.1 then y :: insertSortedByKey x ys else x :: y :: ys

/-- `sorted(params.items())`; keys are pairwise distinct so the tuple order
reduces to the key order. -/
def pySortedByKey (l : List (Chars × List Chars)) : List (Chars × List Chars) :=
  l.foldr insertSortedByKey []

def isSafeByte (b : Nat) : Bool :=
  (48 ≤ b && b ≤ 57) || (65 ≤ b && b ≤ 90) || (97 ≤ b && b ≤ 122)
    || b = 95 || b = 46 || b = 45 || b = 126

def hexDigitUpper (n : Nat) : Char :=
  if n < 10 then Char.ofNat (48 + n) else Char.ofNat (55 + n)

/-- Net effect of `quote_plus` on one UTF-8 byte with `safe=''`. -/
def quotePlusByte (b : Nat) : Chars :=
  if isSafeByte b then [Char.ofNat b]
  else if b = 32 then ['+']
  else ['%', hexDigitUpper (b / 16), hexDigitUpper (b % 16)]

def pyQuotePlus (l : Chars) : Chars :=
  (utf8Bytes l).foldr (fun b acc => quotePlusByte b ++ acc) []

def joinAmp : List Chars → Chars
  | [] => []
  | [p] => p
  | p :: ps => p ++ '&' :: joinAmp ps

/-- `urlencode(sorted_params, doseq=True)`. -/
def pyUrlencodeDoseq (l : List (Chars × List Chars)) : Chars :=
  joinAmp (l.foldr
    (fun kv acc => kv.2.map (fun v => pyQuotePlus kv.1 ++ '=' :: pyQuotePlus v) ++ acc) [])

def urlunsplitBase (netloc url : Chars) : Chars :=
  if netloc ≠ [] ∨ (url ≠ [] ∧ url.take 2 = ['/', '/']) then
    '/' :: '/' :: (netloc ++ (if url ≠ [] ∧ url.take 1 ≠ ['/'] then '/' :: url else url))
  else url

def urlunsplitSchemePart (scheme u : Chars) : Chars :=
  if scheme ≠ [] then scheme ++ ':' :: u else u

def urlunsplitQueryPart (query u : Chars) : Chars :=
  if query ≠ [] then u ++ '?' :: query else u

def urlunsplitFragPart (fragment u : Chars) : Chars :=
  if fragment ≠ [] then u ++ '#' :: fragment else u

def pyUrlunsplit (scheme netloc url query fragment : Chars) : Chars :=
  urlunsplitFragPart fragment
    (urlunsplitQueryPart query (urlunsplitSchemePart scheme (urlunsplitBase netloc url)))

def pyUrlunparse (scheme netloc url params query fragment : Chars) : Chars :=
  if params ≠ [] then pyUrlunsplit scheme netloc (url ++ ';' :: params) query fragment
  else pyUrlunsplit scheme netloc url query fragment

def rstripSlash (l : Chars) : Chars := (l.reverse.dropWhile (· = '/')).reverse

/-- The default-port removal of `canonicalize_url`: `netloc.rsplit(":", 1)`
splits at the last colon into host and port. -/
def canonPortStrip (scheme netloc0 : Chars) : Chars :=
  if netloc0.contains ':' then
    if (scheme = toChars "http"
          ∧ netloc0.drop ((listRfindIdx netloc0 ':').getD 0 + 1) = toChars "80")
        ∨ (scheme = toChars "https"
          ∧ netloc0.drop ((listRfindIdx netloc0 ':').getD 0 + 1) = toChars "443") then
      netloc0.take ((listRfindIdx netloc0 ':').getD 0)
    else netloc0
  else netloc0

/-- The query rebuild of `canonicalize_url`: parse, sort by key, re-encode
(empty queries stay empty). -/
def canonQueryPart (q : Chars) : Chars :=
  if q ≠ [] then pyUrlencodeDoseq (pySortedByKey (pyParseQs q)) else []

/-- Embeds `canonicalize_url` from `app/core/url_utils.py`; the `try/except`
around the body is modelled by the `Except` match (only the parse raises). -/
def canonicalize_url_chars (url : Chars) : Chars :=
  match pyUrlparse url with
  | .error _ => url
  | .ok p =>
    rstripSlash (pyUrlunparse (pyLower p.scheme)
      (canonPortStrip (pyLower p.scheme) (pyLower p.netloc)) p.path p.params
      (canonQueryPart p.query) [])

def canonicalize_url (s : String) : String := String.mk (canonicalize_url_chars s.data)

/-- Embeds `normalize_url` from `app/core/url_utils.py`. -/
def normalize_url (s : String) : String := pyStripS (pyLowerS (canonicalize_url s))

/-! ## Deduplication (`app/core/deduplication.py`) -/

structure ExtractedRow where
  content : String
  content_hash : String
  extraction_method : String
  language : String
deriving Repr, DecidableEq

/-- A persisted `Article` row.  The 1:1 `ExtractedContent` relationship is
inlined as an `Option` field.  `""` models SQL NULL / Python `None` for the
string columns, and `published_at` holds the date key
`published_at.date().isoformat()` that is the only use the embedded code
makes of the datetime value. -/
structure ArticleRow where
  id : Nat := 0
  url : String := ""
  canonical_url : String := ""
  title : String := ""
  source : String := ""
  published_at : String := ""
  snippet : String := ""
  provider_name : String := ""
  fetch_status : String := "pending"
  fetch_error : String := ""
  language : String := ""
  country : String := ""
  state : String := ""
  district : String := ""
  city : String := ""
  source_type : String := ""
  source_trust_score : Nat := 50
  extracted_content : Option ExtractedRow := none
deriving Repr, DecidableEq

/-- A candidate dict as built in `process_director` and consumed by
`deduplicate_articles` / `process_article`.  `language` and `country` are
`Option` because their `dict.get` defaults are non-empty; for the other
string keys `""` coincides with the missing/`None` case.  `published_at`
holds the string date key (`str(...)` / `.date().isoformat()` branch of the
dedup code), and `""` models a falsy/missing value. -/
structure CandidateDict where
  url : String := ""
  canonical_url : String := ""
  title : String := ""
  source : String := ""
  published_at : String := ""
  snippet : String := ""
  provider_name : String := ""
  extracted_content : String := ""
  content_hash : String := ""
  language : Option String := none
  country : Option String := none
  state : String := ""
  district : String := ""
  city : String := ""
  source_type : String := ""
  source_trust_score : Nat := 50
deriving Repr, DecidableEq

/-- The four lookup collections of `deduplicate_articles`; Python sets are
modelled as lists consumed only through membership. -/
structure DedupSeen where
  urls : List String
  canonicals : List String
  hashes : List String
deriving Repr, DecidableEq

def dedupInitSeen (existing : List ArticleRow) : DedupSeen :=
  { urls := existing.foldr
      (fun art acc => if art.url ≠ "" then pyLowerStrip art.url :: acc else acc) []
    canonicals := existing.foldr
      (fun art acc => if art.canonical_url ≠ "" then pyLowerStrip art.canonical_url :: acc else acc) []
    hashes := existing.foldr
      (fun art acc =>
        match art.extracted_content with
        | some e => if e.content_hash ≠ "" then e.content_hash :: acc else acc
        | none => acc) [] }

def historyTriples (existing : List ArticleRow) : List (String × String × String) :=
  existing.foldr
    (fun art acc =>
      if art.title ≠ "" ∧ art.source ≠ "" ∧ art.published_at ≠ "" then
        (pyLowerStrip art.title, pyLowerStrip art.source, art.published_at) :: acc
      else acc) []

/-- One iteration of the `for article in articles` loop of
`deduplicate_articles`: `none` means the candidate was dropped (`continue`),
`some (a1, seen1)` means it was kept with its dict possibly annotated with
`content_hash` and the seen-sets extended. -/
def dedupStep (trip : List (String × String × String)) (seen : DedupSeen)
    (a : CandidateDict) : Option (CandidateDict × DedupSeen) :=
  let url := pyLowerStrip a.url
  let curl := pyLowerStrip a.canonical_url
  let title := pyLowerStrip a.title
  let source := pyLowerStrip a.source
  if url ≠ "" ∧ url ∈ seen.urls then none
  else if curl ≠ "" ∧ curl ∈ seen.canonicals then none
  else if title ≠ "" ∧ source ≠ "" ∧ a.published_at ≠ "" ∧ (title, source, a.published_at) ∈ trip then
    none
  else
    let hsh := compute_content_hash a.extracted_content
    if a.extracted_content ≠ "" ∧ hsh ∈ seen.hashes then none
    else
      let a1 := if a.extracted_content ≠ "" then { a with content_hash := hsh } else a
      some (a1,
        { urls := if url ≠ "" then url :: seen.urls else seen.urls
          canonicals := if curl ≠ "" then curl :: seen.canonicals else seen.canonicals
          hashes := if a.extracted_content ≠ "" then hsh :: seen.hashes else seen.hashes })

def dedupKeep (trip : List (String × String × String)) (seen : DedupSeen) :
    List CandidateDict → List CandidateDict
  | [] => []
  | a :: rest =>
    match dedupStep trip seen a with
    | none => dedupKeep trip seen rest
    | some (a1, seen1) => a1 :: dedupKeep trip seen1 rest

/-- Embeds `deduplicate_articles` from `app/core/deduplication.py`. -/
def deduplicate_articles (articles : List CandidateDict) (existing : List ArticleRow) :
    List CandidateDict :=
  dedupKeep (historyTriples existing) (dedupInitSeen existing) articles

/-! ## India utilities (`app/core/india_utils.py`) -/

def INDIA_REGULATORY_KEYWORDS : List String :=
  ["SEBI", "RBI", "ED", "CBI", "SFIO", "NCLT", "NCLAT", "MCA",
   "IT department", "Income Tax", "GST", "DRI", "SFIO investigation",
   "Ministry of Corporate Affairs", "MCA order", "SEBI order",
   "RBI action", "Enforcement Directorate", "Central Bureau of Investigation",
   "Serious Fraud Investigation Office", "National Company Law Tribunal",
   "National Company Law Appellate Tribunal", "Income Tax Department"]

def INDIA_LEGAL_KEYWORDS : List String :=
  ["Supreme Court", "High Court", "District Court", "Session Court",
   "FIR registered", "charge sheet", "show-cause notice", "attachment of assets",
   "arrest warrant", "bail", "prosecution", "litigation", "PIL", "writ petition",
   "contempt of court", "stay order", "interim order", "final order"]

def INDIAN_HONORIFICS : List String :=
  ["Shri", "Shrimati", "Smt", "Dr", "Dr.", "Prof", "Prof.", "Mr", "Mr.", "Mrs", "Mrs.",
   "Ms", "Ms.", "Sir", "Madam", "Justice", "Hon\x27ble", "Honorable"]

def get_india_regulatory_context : List String := INDIA_REGULATORY_KEYWORDS

def get_india_legal_context : List String := INDIA_LEGAL_KEYWORDS

/-- The middle-initials string of `generate_indian_name_patterns`:
`".".join(m[0] for m in middle_names.split() if m) + "."`. -/
def middleInitials (middle_names : String) : String :=
  String.mk (joinChar '.' ((pySplitWs middle_names.data).map (fun w => [w.headD ' '])) ++ ['.'])

/-- The inner honorific-stripping loop of `generate_indian_name_patterns`:
`name_clean` is threaded across the honorific list and every intermediate
stripped form is appended to the pattern list. -/
def honorificStripList (name_clean : String) : List String → List String
  | [] => []
  | h :: hs =>
    if (h ++ " ").data.isPrefixOf name_clean.data then
      let nc := pyStripS (String.mk (name_clean.data.drop (h.length + 1)))
      nc :: honorificStripList nc hs
    else honorificStripList name_clean hs

def patternsForVariant (name : String) : List String :=
  name :: honorificStripList name INDIAN_HONORIFICS
    ++ (if INDIAN_HONORIFICS.any (fun h => h.data.isPrefixOf name.data) then []
        else ["Shri " ++ name, "Dr. " ++ name, "Mr. " ++ name])

/-- Embeds `generate_indian_name_patterns`; callers pass `""` where the
Python call sites pass `None`. -/
def generate_indian_name_patterns (full_name first_name middle_names last_name : String)
    (aliases : List String) : List String :=
  let name_variants :=
    [full_name] ++ aliases
      ++ (if first_name ≠ "" ∧ last_name ≠ "" then
            [first_name ++ " " ++ last_name]
              ++ (if middle_names ≠ "" then
                    [first_name ++ " " ++ middle_names ++ " " ++ last_name,
                     first_name ++ " " ++ middleInitials middle_names ++ " " ++ last_name]
                  else [])
              ++ [String.mk [first_name.data.headD ' '] ++ ". " ++ last_name]
          else [])
  dedupFirst (name_variants.foldr (fun n acc => patternsForVariant n ++ acc) [])

/-- Collapses whitespace runs to single spaces (`re.sub(r"\s+", " ", name)`);
the flag records whether the previous character was part of a run. -/
def collapseWsAux : Bool → Chars → Chars
  | _, [] => []
  | prev, c :: rest =>
    if isPySpace c then
      if prev then collapseWsAux true rest else ' ' :: collapseWsAux true rest
    else c :: collapseWsAux false rest

def collapseWs (l : Chars) : Chars := collapseWsAux false l

/-- Embeds `normalize_indian_name`. -/
def normalize_indian_name (name : String) : String :=
  let name1 := pyStripS name
  let name2 := INDIAN_HONORIFICS.foldl
    (fun n h =>
      if (pyLowerS h ++ " ").data.isPrefixOf (pyLowerS n).data then
        pyStripS (String.mk (n.data.drop h.length))
      else n)
    name1
  String.mk (collapseWs name2.data)

def mainstreamNationalSources : List String :=
  ["times of india", "the hindu", "hindustan times", "indian express",
   "economic times", "mint", "business standard", "livemint",
   "ndtv", "cnn-news18", "news18", "reuters india", "pti"]

def credibleRegionalSources : List String :=
  ["deccan herald", "the telegraph", "the tribune", "daily pioneer",
   "deccan chronicle", "asian age"]

def partisanSourceKeywords : List String :=
  ["opindia", "republic", "aaj tak", "zee news", "scoopwhoop"]

def tabloidSourceKeywords : List String :=
  ["mid-day", "mumbai mirror", "daily bhaskar"]

/-- Embeds `classify_source_type`. -/
def classify_source_type (source domain : String) : String × Nat :=
  if source = "" then ("unknown", 40)
  else
    let source_lower := pyLowerS source
    let domain_lower := pyLowerS domain
    if mainstreamNationalSources.any (fun n => pyIn n source_lower || pyIn n domain_lower) then
      ("mainstream_national", 85)
    else if credibleRegionalSources.any (fun n => pyIn n source_lower || pyIn n domain_lower) then
      ("credible_regional", 70)
    else if partisanSourceKeywords.any (fun n => pyIn n source_lower || pyIn n domain_lower) then
      ("partisan", 35)
    else if tabloidSourceKeywords.any (fun n => pyIn n source_lower || pyIn n domain_lower) then
      ("tabloid", 25)
    else ("unknown", 40)

/-! ## Entity resolution (`app/core/entity_resolution.py`).  The regex
`r"\b" + re.escape(term) + r"\b"` is a literal search with word-boundary
anchors; `\b` is modelled on the ASCII word-character class. -/

def isWordCharPy (c : Char) : Bool := c.isAlphanum || c = '_'

def isWordAt (text : Chars) (i : Nat) : Bool :=
  match text[i]? with
  | some c => isWordCharPy c
  | none => false

/-- Whether a `\b` word boundary sits just before position `i` of `text`. -/
def boundaryAt (text : Chars) (i : Nat) : Bool :=
  (match i with
   | 0 => false
   | j + 1 => isWordAt text j) != isWordAt text i

def wbMatchAt (pat text : Chars) (i : Nat) : Bool :=
  ((text.drop i).take pat.length == pat) && boundaryAt text i && boundaryAt text (i + pat.length)

/-- `re.search(r"\b<literal>\b", text)` as a Boolean. -/
def wbSearch (pat text : Chars) : Bool :=
  (List.range (text.length + 1)).any (wbMatchAt pat text)

/-- Embeds `find_name_in_text` (the call sites always use the default
`case_sensitive=False` path: the text is lowered once and each name is
lowered before the search). -/
def find_name_in_text (text : String) (names : List String) : Bool :=
  if text = "" then false
  else
    let t := pyLower text.data
    names.any (fun name => !(name == "") && wbSearch (pyLower name.data) t)

/-- Embeds `find_terms_in_text` (default case-insensitive path). -/
def find_terms_in_text (text : String) (terms : List String) : Nat :=
  if text = "" ∨ terms = [] then 0
  else
    let t := pyLower text.data
    terms.foldl
      (fun count term =>
        if !(term == "") && wbSearch (pyLower term.data) t then count + 1 else count) 0

/-- Embeds `check_negative_terms`. -/
def check_negative_terms (text : String) (negative_terms : List String) : Bool :=
  if text = "" ∨ negative_terms = [] then false
  else
    let t := pyLower text.data
    negative_terms.any (fun term => !(term == "") && wbSearch (pyLower term.data) t)

/-- A `Director` row (`app/models/director.py`).  `""` models NULL for
string columns.  The `india_context_profile` JSON dict is represented by
its truthiness flag and its two term lists. -/
structure Director where
  id : Nat := 0
  full_name : String := ""
  first_name : String := ""
  middle_names : String := ""
  last_name : String := ""
  aliases : List String := []
  context_terms : List String := []
  negative_terms : List String := []
  company_name : String := ""
  company_industry : String := ""
  listed_exchange : String := ""
  hq_state : String := ""
  hq_city : String := ""
  india_profile_present : Bool := false
  india_regulatory_terms : List String := []
  india_legal_terms : List String := []
  is_active : Bool := true
deriving Repr, DecidableEq

def Director.get_all_names (d : Director) : List String :=
  [d.full_name] ++ d.aliases
    ++ (if d.first_name ≠ "" ∨ d.last_name ≠ "" then
          (if d.first_name ≠ "" ∧ d.last_name ≠ "" then
             [d.first_name ++ " " ++ d.last_name]
               ++ (if d.middle_names ≠ "" then
                     [d.first_name ++ " " ++ d.middle_names ++ " " ++ d.last_name]
                   else [])
           else [])
            ++ (if d.last_name ≠ "" ∧ d.first_name = "" then [d.last_name] else [])
        else [])

def Director.get_all_context_terms (d : Director) : List String :=
  d.context_terms
    ++ (if d.india_profile_present then d.india_regulatory_terms ++ d.india_legal_terms else [])
    ++ (if d.company_name ≠ "" then [d.company_name] else [])
    ++ (if d.company_industry ≠ "" then [d.company_industry] else [])
    ++ (if d.listed_exchange ≠ "" then [d.listed_exchange] else [])

def Director.get_all_negative_terms (d : Director) : List String := d.negative_terms

/-- Embeds `compute_confidence`.  The ORM model always has the structured
name attributes, so the `hasattr` guard around the Indian-pattern branch is
always true.  Scores are rationals; the proved equalities are on the exact
literal-return paths.  `""` models `None` for the optional arguments (the
code only tests their truthiness and `None`/`""` agree). -/
def compute_confidence (director : Director) (title snippet extracted_content : String)
    (article_state article_city : String) : ℚ :=
  let names0 := director.get_all_names
      ++ generate_indian_name_patterns director.full_name director.first_name
           director.middle_names director.last_name director.aliases
  let names := dedupFirst (names0.map normalize_indian_name)
  let context_terms := director.get_all_context_terms
  let negative_terms := director.get_all_negative_terms
  let full_text := title ++ " " ++ snippet ++ " " ++ extracted_content
  if check_negative_terms full_text negative_terms then 0
  else
    let c1 : ℚ := if find_name_in_text title names then 0.5 else 0
    let c2 : ℚ := c1 + (if find_name_in_text snippet names then 0.3 else 0)
    let c3 : ℚ := c2 + (if extracted_content ≠ "" ∧ find_name_in_text extracted_content names then 0.2 else 0)
    let c4 : ℚ := c3 + min (0.1 * (find_terms_in_text full_text context_terms : ℚ)) 0.3
    let c5 : ℚ := c4 + (if article_state ≠ "" ∧ director.hq_state ≠ ""
        ∧ pyLowerS article_state = pyLowerS director.hq_state then 0.1 else 0)
    let c6 : ℚ := c5 + (if article_city ≠ "" ∧ director.hq_city ≠ ""
        ∧ pyLowerS article_city = pyLowerS director.hq_city then 0.05 else 0)
    if c6 < 0.3 ∧ ¬ find_name_in_text full_text names then 0
    else min c6 1

/-- Embeds `resolve_director`: best strictly-greater score above the
threshold, first seen wins. -/
def resolve_director (directors : List Director) (title snippet extracted_content : String)
    (min_confidence : ℚ) (article_state article_city : String) : Option (Director × ℚ) :=
  let best := directors.foldl
    (fun (acc : Option Director × ℚ) director =>
      if ¬ director.is_active then acc
      else
        let confidence := compute_confidence director title snippet extracted_content
          article_state article_city
        if confidence > acc.2 ∧ confidence ≥ min_confidence then (some director, confidence)
        else acc)
    (none, 0)
  match best with
  | (some d, c) => some (d, c)
  | (none, _) => none

/-! ## Classification (`app/core/classification.py`) -/

inductive Sentiment
  | positive
  | negative
  | neutral
  | mixed
deriving Repr, DecidableEq

inductive Severity
  | low
  | medium
  | high
deriving Repr, DecidableEq

inductive Category
  | regulatory_enforcement
  | legal_court
  | litigation
  | financial_corporate
  | governance_board_appointment
  | corporate_governance
  | esg_social_political
  | awards_recognition
  | personal_reputation
  | other
deriving Repr, DecidableEq

structure Classification where
  sentiment : Sentiment
  severity : Severity
  category : Category
  summary_bullets : List String
  why_it_matters : String
deriving Repr, DecidableEq

def NEGATIVE_HIGH_SEVERITY_KEYWORDS : List String :=
  ["arrested", "chargesheet", "raid", "fraud", "money laundering", "ED", "CBI",
   "conviction", "court order", "scam", "bankruptcy", "default", "sanction",
   "banned", "SEBI action", "enforcement directorate", "central bureau",
   "convicted", "sentenced", "jail", "prison"]

def NEGATIVE_MEDIUM_SEVERITY_KEYWORDS : List String :=
  ["investigation", "notice", "summons", "PIL", "lawsuit", "dispute",
   "allegation", "complaint", "inquiry", "probe", "scrutiny"]

def POSITIVE_KEYWORDS : List String :=
  ["appointed", "joins board", "award", "honoured", "recognized", "milestone",
   "expansion", "philanthropic", "achievement", "success", "excellence",
   "leadership", "commendation"]

def REGULATORY_KEYWORDS : List String :=
  ["SEBI", "RBI", "ED", "CBI", "regulatory", "compliance", "violation",
   "penalty", "fine", "action"]

def LEGAL_KEYWORDS : List String :=
  ["court", "judge", "judgment", "lawsuit", "litigation", "legal",
   "petition", "hearing", "verdict"]

def FINANCIAL_KEYWORDS : List String :=
  ["financial", "revenue", "profit", "loss", "earnings", "quarterly",
   "annual", "corporate", "business"]

def GOVERNANCE_KEYWORDS : List String :=
  ["board", "director", "governance", "appointment", "resignation",
   "independent director", "committee", "meeting"]

def litigationSubKeywordsA : List String :=
  ["nclt", "nclat", "civil suit", "criminal case", "fir", "charge sheet"]

def litigationSubKeywordsB : List String :=
  ["nclt", "nclat", "civil suit", "criminal case"]

def governanceDisputeKeywords : List String :=
  ["board dispute", "related party", "governance issue", "conflict of interest"]

def esgSocialKeywords : List String :=
  ["controversy", "protest", "statement", "criticism", "allegation"]

def awardsSubKeywords : List String := ["award", "honoured", "recognized"]

/-- `kw.lower() in search_text` (the substring test the classifier uses). -/
def kwIn (kw : String) (text : String) : Bool := pyIn (pyLowerS kw) text

/-- Embeds `extractive_summary`: split on runs of `[.!?]` (single-character
splits followed by the strip-and-drop-empty filter give the same list as
the `[.!?]+` regex split), strip, drop empties, take the first few. -/
def extractive_summary (text : String) (max_sentences : Nat) : List String :=
  if text = "" then []
  else
    (((splitOnPred (fun c => c = '.' || c = '!' || c = '?') text.data).map
        (fun s => String.mk (pyStrip s))).filter (fun s => s ≠ "")).take max_sentences

/-- Embeds `classify_heuristic`.  The `language` parameter only feeds a
branch whose body is `pass`, so `search_text` equals the lowered full text
either way; the parameter is kept for signature fidelity. -/
def classify_heuristic (title snippet content : String) (language country_profile : String) :
    Classification :=
  let search_text := pyLowerS (title ++ " " ++ snippet ++ " " ++ content)
  let regulatory_keywords :=
    if country_profile = "IN" then get_india_regulatory_context ++ REGULATORY_KEYWORDS
    else REGULATORY_KEYWORDS
  let legal_keywords :=
    if country_profile = "IN" then get_india_legal_context ++ LEGAL_KEYWORDS
    else LEGAL_KEYWORDS
  let negative_high_count :=
    (NEGATIVE_HIGH_SEVERITY_KEYWORDS.filter (fun kw => kwIn kw search_text)).length
  let ssc :=
    if negative_high_count > 0 then
      (Sentiment.negative, Severity.high,
        if regulatory_keywords.any (fun kw => kwIn kw search_text) then
          Category.regulatory_enforcement
        else if legal_keywords.any (fun kw => kwIn kw search_text) then
          (if litigationSubKeywordsA.any (fun kw => kwIn kw search_text) then Category.litigation
           else Category.legal_court)
        else Category.personal_reputation)
    else if NEGATIVE_MEDIUM_SEVERITY_KEYWORDS.any (fun kw => kwIn kw search_text) then
      (Sentiment.negative, Severity.medium,
        if regulatory_keywords.any (fun kw => kwIn kw search_text) then
          Category.regulatory_enforcement
        else if legal_keywords.any (fun kw => kwIn kw search_text) then
          (if litigationSubKeywordsA.any (fun kw => kwIn kw search_text) then Category.litigation
           else Category.legal_court)
        else Category.personal_reputation)
    else if POSITIVE_KEYWORDS.any (fun kw => kwIn kw search_text) then
      (Sentiment.positive, Severity.low,
        if awardsSubKeywords.any (fun kw => pyIn kw search_text) then Category.awards_recognition
        else if GOVERNANCE_KEYWORDS.any (fun kw => pyIn kw search_text) then
          Category.governance_board_appointment
        else Category.other)
    else (Sentiment.neutral, Severity.low, Category.other)
  let sentiment := ssc.1
  let severity := ssc.2.1
  let category0 := ssc.2.2
  let category :=
    if category0 = Category.other then
      if regulatory_keywords.any (fun kw => kwIn kw search_text) then
        Category.regulatory_enforcement
      else if legal_keywords.any (fun kw => kwIn kw search_text) then
        (if litigationSubKeywordsB.any (fun kw => kwIn kw search_text) then Category.litigation
         else Category.legal_court)
      else if FINANCIAL_KEYWORDS.any (fun kw => pyIn kw search_text) then
        Category.financial_corporate
      else if GOVERNANCE_KEYWORDS.any (fun kw => pyIn kw search_text) then
        (if governanceDisputeKeywords.any (fun kw => kwIn kw search_text) then
           Category.corporate_governance
         else Category.governance_board_appointment)
      else if esgSocialKeywords.any (fun kw => pyIn kw search_text) then
        Category.esg_social_political
      else Category.other
    else category0
  let summary_text := if content ≠ "" then content else if snippet ≠ "" then snippet else title
  let summary_bullets0 := extractive_summary summary_text 3
  let summary_bullets := if summary_bullets0 = [] then [title] else summary_bullets0
  let why_it_matters :=
    if severity = Severity.high then
      if category = Category.regulatory_enforcement then
        "High severity regulatory action requiring immediate board attention and compliance review."
      else if category = Category.legal_court ∨ category = Category.litigation then
        "High severity legal matter requiring immediate legal counsel and board notification."
      else "High severity item requiring immediate attention."
    else if severity = Severity.medium then
      "Medium severity item that may require monitoring and periodic board updates."
    else if sentiment = Sentiment.positive then
      "Positive news about the director - suitable for stakeholder communication."
    else "Neutral or low-severity mention."
  { sentiment := sentiment, severity := severity, category := category,
    summary_bullets := summary_bullets.take 6, why_it_matters := why_it_matters }

/-! ## Worker tasks (`app/worker/tasks.py`).  Each Celery task is a state
transformer over an explicit `Db`; everything that crosses the process
boundary (HTTP fetch + extraction, language detection via optional
libraries, the external LLM classifier, SMTP) is an oracle in a
`WorkerEnv`.  A retried/replayed job is the same transformer run again
against the same environment. -/

structure MentionRow where
  id : Nat := 0
  director_id : Nat := 0
  article_id : Nat := 0
  confidence : ℚ := 0
  sentiment : Sentiment := Sentiment.neutral
  severity : Severity := Severity.low
  category : Category := Category.other
  summary_bullets : List String := []
  why_it_matters : String := ""
  is_reviewed : Bool := false
  is_confirmed : Bool := true
  alert_sent : Bool := false
deriving Repr, DecidableEq

structure Db where
  directors : List Director := []
  articles : List ArticleRow := []
  mentions : List MentionRow := []
  next_article_id : Nat := 1
  next_mention_id : Nat := 1
deriving Repr, DecidableEq

structure WorkerEnv where
  fetch_and_extract : String → String × String × String
  detect_language : String → String × ℚ
  use_llm : Bool
  llm_api_key : String
  classify_llm : String → String → String → Option Classification
  confidence_threshold_alert : ℚ
  country_profile : String

def findArticleByCanonical (db : Db) (cu : String) : Option ArticleRow :=
  db.articles.find? (fun a => a.canonical_url == cu)

def updateArticle (db : Db) (art : ArticleRow) : Db :=
  { db with articles := db.articles.map (fun a => if a.id = art.id then art else a) }

/-- The `existing`-or-`Article(...)` block of `process_article`:
resolve-or-create by canonical URL (`db.add` + `db.flush` assigns the id). -/
def resolveOrCreateArticle (env : WorkerEnv) (db : Db) (a : CandidateDict) (cu : String) :
    ArticleRow × Db :=
  match findArticleByCanonical db cu with
  | some existing => (existing, db)
  | none =>
    let st := classify_source_type a.source a.url
    let art : ArticleRow :=
      { id := db.next_article_id, url := a.url, canonical_url := cu, title := a.title,
        source := a.source, published_at := a.published_at, snippet := a.snippet,
        provider_name := a.provider_name, fetch_status := "pending", fetch_error := "",
        language := a.language.getD "en", country := a.country.getD env.country_profile,
        state := a.state, district := a.district, city := a.city,
        source_type := if st.1 ≠ "" then st.1 else a.source_type,
        source_trust_score := if st.2 ≠ 0 then st.2 else a.source_trust_score,
        extracted_content := none }
    (art, { db with articles := db.articles ++ [art],
                    next_article_id := db.next_article_id + 1 })

/-- The `if not article.extracted_content:` block of `process_article`.
The returned flag is true exactly on the `if error: ...; return` path. -/
def fetchStage (env : WorkerEnv) (db : Db) (article : ArticleRow) : ArticleRow × Db × Bool :=
  match article.extracted_content with
  | some _ => (article, db, false)
  | none =>
    let fr := env.fetch_and_extract article.url
    let extracted_text := fr.1
    let fetch_error := fr.2.1
    let method := fr.2.2
    if fetch_error ≠ "" then
      let a1 := { article with fetch_status := "failed", fetch_error := fetch_error }
      (a1, updateArticle db a1, true)
    else if extracted_text ≠ "" then
      let lang :=
        if article.language = "" ∨ article.language = "en" then
          let dl := env.detect_language (article.title ++ " " ++ String.mk (extracted_text.data.take 500))
          if dl.2 > 0.6 then dl.1 else article.language
        else article.language
      let a1 := { article with
        language := lang, fetch_status := "success",
        extracted_content := some
          { content := extracted_text, content_hash := compute_content_hash extracted_text,
            extraction_method := method, language := lang } }
      (a1, updateArticle db a1, false)
    else
      let a1 := { article with fetch_status := "failed", fetch_error := "No content extracted" }
      (a1, updateArticle db a1, false)

/-- `article.extracted_content.content if article.extracted_content else ""`. -/
def extractedTextOf (article : ArticleRow) : String :=
  match article.extracted_content with
  | some e => e.content
  | none => ""

/-- The resolution argument bundle of `process_article` (threshold 0.3). -/
def resolveForArticle (director : Director) (article : ArticleRow) : Option (Director × ℚ) :=
  resolve_director [director] article.title article.snippet (extractedTextOf article) (3 / 10)
    article.state article.city

/-- The LLM-or-heuristic classification step of `process_article`. -/
def classificationFor (env : WorkerEnv) (article : ArticleRow) : Classification :=
  let llm_result :=
    if env.use_llm ∧ env.llm_api_key ≠ "" then
      env.classify_llm article.title article.snippet (extractedTextOf article)
    else none
  match llm_result with
  | some c => c
  | none =>
    classify_heuristic article.title article.snippet (extractedTextOf article)
      (if article.language ≠ "" then article.language else "en") env.country_profile

/-- The `Mention(...)` row built by `process_article` (`db.flush` assigns the id). -/
def mentionBuild (env : WorkerEnv) (db : Db) (matched_director : Director) (confidence : ℚ)
    (article : ArticleRow) : MentionRow :=
  { id := db.next_mention_id, director_id := matched_director.id, article_id := article.id,
    confidence := confidence, sentiment := (classificationFor env article).sentiment,
    severity := (classificationFor env article).severity,
    category := (classificationFor env article).category,
    summary_bullets := (classificationFor env article).summary_bullets,
    why_it_matters := (classificationFor env article).why_it_matters,
    is_reviewed := false, is_confirmed := true, alert_sent := false }

/-- The mention insert, commit, and alert-enqueue tail of `process_article`. -/
def mentionInsert (env : WorkerEnv) (db : Db) (matched_director : Director) (confidence : ℚ)
    (article : ArticleRow) : Db × List Nat :=
  ({ db with mentions := db.mentions ++ [mentionBuild env db matched_director confidence article],
             next_mention_id := db.next_mention_id + 1 },
   if (mentionBuild env db matched_director confidence article).severity = Severity.high
       ∧ (mentionBuild env db matched_director confidence article).confidence
           ≥ env.confidence_threshold_alert
       ∧ (mentionBuild env db matched_director confidence article).alert_sent = false then
     [(mentionBuild env db matched_director confidence article).id]
   else [])

/-- Entity resolution, mention existence check, classification, mention
insert and the alert-enqueue condition of `process_article`.  The second
component lists the mention ids handed to `send_alert.delay`. -/
def mentionPhase (env : WorkerEnv) (db : Db) (director : Director) (article : ArticleRow) :
    Db × List Nat :=
  match resolveForArticle director article with
  | none => (db, [])
  | some (matched_director, confidence) =>
    if db.mentions.any (fun m => m.director_id == matched_director.id && m.article_id == article.id) then
      (db, [])
    else mentionInsert env db matched_director confidence article

/-- `article_dict.get("canonical_url") or canonicalize_url(url)`. -/
def paCu (article_dict : CandidateDict) : String :=
  if article_dict.canonical_url ≠ "" then article_dict.canonical_url
  else canonicalize_url article_dict.url

/-- Embeds the `process_article` task.  Returns the updated store and the
mention ids enqueued for `send_alert`. -/
def process_article (env : WorkerEnv) (db : Db) (director_id : Nat)
    (article_dict : CandidateDict) : Db × List Nat :=
  match db.directors.find? (fun d => d.id == director_id) with
  | none => (db, [])
  | some director =>
    let rc := resolveOrCreateArticle env db article_dict (paCu article_dict)
    let fs := fetchStage env rc.2 rc.1
    if fs.2.2 then (fs.2.1, [])
    else mentionPhase env fs.2.1 director fs.1

/-- How far one attempt of the `send_alert` task gets before a crash:
`completed` reaches the commit, `crashAfterSend` dies between
`send_alert_email(mention)` and the `alert_sent` commit, `crashBeforeSend`
dies before the email goes out. -/
inductive AlertRun
  | completed
  | crashBeforeSend
  | crashAfterSend
deriving Repr, DecidableEq

/-- Embeds the `send_alert` task under the crash model above.  The second
component counts alert emails actually sent by this attempt; only the
`completed` outcome persists the `alert_sent` flag, mirroring that the
email is an unrollbackable external effect while the flag is a DB commit
that happens after it. -/
def send_alert (db : Db) (mention_id : Nat) (run : AlertRun) : Db × Nat :=
  match db.mentions.find? (fun m => m.id == mention_id) with
  | none => (db, 0)
  | some m =>
    if m.alert_sent then (db, 0)
    else
      match run with
      | .crashBeforeSend => (db, 0)
      | .crashAfterSend => (db, 1)
      | .completed =>
        let ms := db.mentions.map
          (fun x => if x.id == mention_id then { x with alert_sent := true } else x)
        ({ db with mentions := ms }, 1)

/-! ## Report generation (`app/core/reporting.py`).  Calendar datetimes are
abstracted to an integer timeline: a date is its day index, a mention's
`created_at` is in seconds, and `[date-1day, date end-of-day]` becomes the
integer interval below (sub-second granularity does not affect any claim).
Rendering, file writes and the digest email are external collaborators and
leave the store untouched; the persisted `Report` row carries the date, the
two artifact paths and the stats dict. -/

structure ReportStats where
  total_mentions : Nat
  high_severity : Nat
  medium_severity : Nat
  low_severity : Nat
  positive : Nat
  negative : Nat
  neutral : Nat
  mixed : Nat
deriving Repr, DecidableEq

structure ReportRow where
  report_date : Int
  html_path : String
  pdf_path : String
  stats : ReportStats
deriving Repr, DecidableEq

structure ReportMention where
  director_id : Nat := 0
  created_at : Int := 0
  is_confirmed : Bool := true
  is_reviewed : Bool := false
  confidence : ℚ := 0
  sentiment : Sentiment := Sentiment.neutral
  severity : Severity := Severity.low
deriving Repr, DecidableEq

structure ReportDb where
  report_mentions : List ReportMention := []
  reports : List ReportRow := []
deriving Repr, DecidableEq

def computeReportStats (mentions : List ReportMention) : ReportStats :=
  { total_mentions := mentions.length
    high_severity := (mentions.filter (fun m => m.severity = Severity.high)).length
    medium_severity := (mentions.filter (fun m => m.severity = Severity.medium)).length
    low_severity := (mentions.filter (fun m => m.severity = Severity.low)).length
    positive := (mentions.filter (fun m => m.sentiment = Sentiment.positive)).length
    negative := (mentions.filter (fun m => m.sentiment = Sentiment.negative)).length
    neutral := (mentions.filter (fun m => m.sentiment = Sentiment.neutral)).length
    mixed := (mentions.filter (fun m => m.sentiment = Sentiment.mixed)).length }

def dayStart (d : Int) : Int := 86400 * d

/-- Injective stand-in for `report_date.isoformat()` in the artifact names. -/
def dateTag (d : Int) : String := toString d

/-- Embeds `generate_report`: return the existing row for the date if one
exists, otherwise select the confirmed mentions of the window, aggregate,
persist one new `Report` row and return it. -/
def generate_report (db : ReportDb) (report_date : Int) : ReportRow × ReportDb :=
  match db.reports.find? (fun r => r.report_date == report_date) with
  | some existing => (existing, db)
  | none =>
    let date_from := dayStart report_date - 86400
    let date_to := dayStart (report_date + 1) - 1
    let mentions := db.report_mentions.filter
      (fun m => decide (date_from ≤ m.created_at) && decide (m.created_at ≤ date_to) && m.is_confirmed)
    let report : ReportRow :=
      { report_date := report_date,
        html_path := "report_" ++ dateTag report_date ++ ".html",
        pdf_path := "report_" ++ dateTag report_date ++ ".pdf",
        stats := computeReportStats mentions }
    (report, { db with reports := db.reports ++ [report] })

/-! ## Predicates used in the claim statements -/

/-- Two batch candidates agree on one of the three dedup keys that the
batch loop accumulates incrementally (exact normalized URL, canonical URL,
content-fingerprint hash). -/
def sharesBatchKey (a b : CandidateDict) : Prop :=
  (pyLowerStrip a.url ≠ "" ∧ pyLowerStrip a.url = pyLowerStrip b.url)
  ∨ (pyLowerStrip a.canonical_url ≠ ""
      ∧ pyLowerStrip a.canonical_url = pyLowerStrip b.canonical_url)
  ∨ (a.extracted_content ≠ "" ∧ b.extracted_content ≠ ""
      ∧ compute_content_hash a.extracted_content = compute_content_hash b.extracted_content)

/-- At most one Mention row per (director, article) pair. -/
def mentionPairUnique (db : Db) : Prop :=
  db.mentions.Pairwise
    (fun m1 m2 => ¬ (m1.director_id = m2.director_id ∧ m1.article_id = m2.article_id))

/-- At most one Report row per calendar date. -/
def reportDateUnique (db : ReportDb) : Prop :=
  db.reports.Pairwise (fun r1 r2 => r1.report_date ≠ r2.report_date)

/-! ## Concrete instances used by witnesses and counterexamples -/

/-- Oracle environment whose fetch succeeds with no error but extracts no
text (the terminal `No content extracted` path, which still classifies on
title and snippet). -/
def oracleEmptyText : WorkerEnv :=
  { fetch_and_extract := fun _ => ("", "", "")
    detect_language := fun _ => ("en", 0)
    use_llm := false
    llm_api_key := ""
    classify_llm := fun _ _ _ => none
    confidence_threshold_alert := 7 / 10
    country_profile := "IN" }

/-- Oracle environment whose fetch always fails. -/
def oracleFetchFails : WorkerEnv :=
  { oracleEmptyText with fetch_and_extract := fun _ => ("", "network unreachable", "") }

def smithDirector : Director := { id := 1, full_name := "John Smith" }

def smithDb : Db := { directors := [smithDirector] }

def smithCandidate : CandidateDict :=
  { url := "https://ex.example/a", canonical_url := "https://ex.example/a",
    title := "John Smith arrested", snippet := "John Smith arrested by police" }

/-- A store holding one high-severity mention whose alert has not been sent. -/
def alertDb : Db :=
  { mentions := [{ id := 1, director_id := 1, article_id := 1, confidence := 1,
                   sentiment := Sentiment.negative, severity := Severity.high }] }

/-- A mention whose alert flag is already set. -/
def sentMention : MentionRow :=
  { id := 1, director_id := 1, article_id := 1, confidence := 1,
    sentiment := Sentiment.negative, severity := Severity.high, alert_sent := true }

/-- A store holding only `sentMention`. -/
def alertDbSent : Db := { mentions := [sentMention] }

/-- The example subject of the spec: negative term `actor`. -/
def johnDoeDirector : Director :=
  { full_name := "John Doe", aliases := ["J. Doe"],
    context_terms := ["ABC Corp", "independent director"], negative_terms := ["actor"] }

/-- Two candidates with different URLs but identical
(title, source, published date) and no extracted content. -/
def tripleCandA : CandidateDict :=
  { url := "https://a.example/1", title := "T", source := "S", published_at := "2024-01-01" }

def tripleCandB : CandidateDict :=
  { url := "https://b.example/2", title := "T", source := "S", published_at := "2024-01-01" }

/-! ## Helper lemmas -/

theorem mem_of_takeWhile {p : Char → Bool} {l : Chars} {a : Char}
    (h : a ∈ l.takeWhile p) : a ∈ l := (List.takeWhile_sublist p).mem h

theorem mem_of_dropWhile {p : Char → Bool} {l : Chars} {a : Char}
    (h : a ∈ l.dropWhile p) : a ∈ l := (List.dropWhile_sublist p).mem h

theorem charShiftLower_ne_hash : ∀ n, n < 91 → 65 ≤ n → Char.ofNat (n + 32) ≠ '#' := by decide

theorem pyLowerChar_eq_hash {c : Char} (h : pyLowerChar c = '#') : c = '#' := by
  by_contra hne
  unfold pyLowerChar at h
  split at h
  · next hcond =>
    rw [Bool.and_eq_true, decide_eq_true_eq, decide_eq_true_eq] at hcond
    exact charShiftLower_ne_hash c.toNat (by omega) hcond.1 h
  · exact hne h

theorem noHash_pyLower {l : Chars} (h : '#' ∉ l) : '#' ∉ pyLower l := by
  intro hmem
  obtain ⟨c, hc, hlc⟩ := List.mem_map.mp hmem
  exact h (pyLowerChar_eq_hash hlc ▸ hc)

theorem noHash_scheme (u : Chars) : '#' ∉ (urlsplitScheme u).1 := by
  unfold urlsplitScheme
  cases hidx : u.findIdx? (· = ':') with
  | none => simp
  | some n =>
    simp only
    split
    · next hcond =>
      simp only [Bool.and_eq_true, decide_eq_true_eq] at hcond
      intro hmem
      obtain ⟨c, hc, hlc⟩ := List.mem_map.mp hmem
      have hc' : c ∈ u.take n := hc
      have := List.all_eq_true.mp hcond.2 c hc'
      rw [pyLowerChar_eq_hash hlc] at this
      simp [schemeChar] at this
    · simp

theorem noHash_netloc (u : Chars) : '#' ∉ (urlsplitNetloc u).1 := by
  unfold urlsplitNetloc
  split
  · intro hmem
    have := List.mem_takeWhile_imp hmem
    simp [notNetlocDelim] at this
  · simp

theorem noHash_fragSplit (u : Chars) : '#' ∉ (urlsplitFrag u).1 := by
  unfold urlsplitFrag
  split
  · intro hmem
    have := List.mem_takeWhile_imp hmem
    simp at this
  · next hc =>
    intro hmem
    simp only [List.elem_eq_mem, decide_eq_true_eq] at hc
    exact hc hmem

theorem noHash_querySplit {u : Chars} (h : '#' ∉ u) :
    '#' ∉ (urlsplitQuery u).1 ∧ '#' ∉ (urlsplitQuery u).2 := by
  unfold urlsplitQuery
  split
  · exact ⟨fun hmem => h (mem_of_takeWhile hmem),
           fun hmem => h (mem_of_dropWhile (List.mem_of_mem_drop hmem))⟩
  · exact ⟨h, by simp⟩

theorem pyUrlsplit_ok_noHash {u : Chars} {r : UrlSplitResult} (h : pyUrlsplit u = .ok r) :
    '#' ∉ r.scheme ∧ '#' ∉ r.netloc ∧ '#' ∉ r.path ∧ '#' ∉ r.query := by
  unfold pyUrlsplit at h
  simp only [] at h
  split at h
  · exact absurd h (by simp)
  · injection h with h'
    subst h'
    refine ⟨noHash_scheme _, noHash_netloc _, ?_, ?_⟩
    · exact (noHash_querySplit (noHash_fragSplit _)).1
    · exact (noHash_querySplit (noHash_fragSplit _)).2

theorem noHash_splitParams {u : Chars} (h : '#' ∉ u) :
    '#' ∉ (pySplitParams u).1 ∧ '#' ∉ (pySplitParams u).2 := by
  unfold pySplitParams
  split
  · split
    · exact ⟨fun hm => h (List.mem_of_mem_take hm), fun hm => h (List.mem_of_mem_drop hm)⟩
    · exact ⟨h, by simp⟩
  · split
    · exact ⟨fun hm => h (List.mem_of_mem_take hm), fun hm => h (List.mem_of_mem_drop hm)⟩
    · exact ⟨h, by simp⟩

theorem pyUrlparse_ok_noHash {u : Chars} {r : UrlParseResult} (h : pyUrlparse u = .ok r) :
    '#' ∉ r.scheme ∧ '#' ∉ r.netloc ∧ '#' ∉ r.path ∧ '#' ∉ r.params ∧ '#' ∉ r.query := by
  unfold pyUrlparse at h
  split at h
  · exact absurd h (by simp)
  · next rs heq =>
    obtain ⟨h1, h2, h3, h4⟩ := pyUrlsplit_ok_noHash heq
    split at h
    · injection h with h'
      subst h'
      exact ⟨h1, h2, (noHash_splitParams h3).1, (noHash_splitParams h3).2, h4⟩
    · injection h with h'
      subst h'
      exact ⟨h1, h2, h3, by simp, h4⟩

theorem noHash_cons {c : Char} (hc : c ≠ '#') {l : Chars} (h : '#' ∉ l) : '#' ∉ c :: l := by
  intro hm
  rcases List.mem_cons.mp hm with h' | h'
  · exact hc h'.symm
  · exact h h'

theorem noHash_append {l1 l2 : Chars} (h1 : '#' ∉ l1) (h2 : '#' ∉ l2) : '#' ∉ l1 ++ l2 := by
  intro hm
  rcases List.mem_append.mp hm with h' | h'
  · exact h1 h'
  · exact h2 h'

theorem noHash_ite {c : Prop} [Decidable c] {l1 l2 : Chars}
    (h1 : '#' ∉ l1) (h2 : '#' ∉ l2) : '#' ∉ (if c then l1 else l2) := by
  split
  · exact h1
  · exact h2

theorem char_toNat_lt_unicode (c : Char) : c.toNat < 1114112 := by
  have heq : c.toNat = c.val.toNat := rfl
  have h := c.valid
  rcases h with h | ⟨_, h2⟩
  · have h' : c.val.toNat < 55296 := h
    omega
  · have h' : c.val.toNat < 1114112 := h2
    omega

theorem utf8EncodeChar_lt {c : Char} : ∀ b ∈ utf8EncodeChar c, b < 256 := by
  intro b hb
  have hc := char_toNat_lt_unicode c
  simp only [utf8EncodeChar] at hb
  split at hb
  · simp at hb
    omega
  · split at hb
    · simp at hb
      rcases hb with rfl | rfl <;> omega
    · split at hb
      · simp at hb
        rcases hb with rfl | rfl | rfl <;> omega
      · simp at hb
        rcases hb with rfl | rfl | rfl | rfl <;> omega

theorem utf8Bytes_lt {l : Chars} : ∀ b ∈ utf8Bytes l, b < 256 := by
  induction l with
  | nil => intro b hb; simp [utf8Bytes] at hb
  | cons c cs ih =>
    intro b hb
    simp only [utf8Bytes, List.foldr_cons, List.mem_append] at hb
    rcases hb with hb | hb
    · exact utf8EncodeChar_lt b hb
    · exact ih b hb

theorem quotePlusByte_noHash : ∀ b, b < 256 → '#' ∉ quotePlusByte b := by decide

theorem foldrQuote_noHash : ∀ bs : List Nat, (∀ b ∈ bs, b < 256) →
    '#' ∉ bs.foldr (fun b acc => quotePlusByte b ++ acc) [] := by
  intro bs
  induction bs with
  | nil => intro _; simp
  | cons b rest ih =>
    intro hlt
    exact noHash_append (fun hm => quotePlusByte_noHash b (hlt b (List.mem_cons_self b rest)) hm)
      (ih (fun x hx => hlt x (List.mem_cons_of_mem b hx)))

theorem pyQuotePlus_noHash (l : Chars) : '#' ∉ pyQuotePlus l :=
  foldrQuote_noHash (utf8Bytes l) utf8Bytes_lt

theorem joinAmp_noHash : ∀ ps : List Chars, (∀ p ∈ ps, '#' ∉ p) → '#' ∉ joinAmp ps := by
  intro ps
  induction ps with
  | nil => intro _; simp [joinAmp]
  | cons p rest ih =>
    intro hall
    cases rest with
    | nil => simpa [joinAmp] using hall p (by simp)
    | cons q qs =>
      show '#' ∉ p ++ '&' :: joinAmp (q :: qs)
      exact noHash_append (hall p (by simp))
        (noHash_cons (by decide) (ih (fun x hx => hall x (List.mem_cons_of_mem p hx))))

theorem pyUrlencodeDoseq_noHash (l : List (Chars × List Chars)) :
    '#' ∉ pyUrlencodeDoseq l := by
  unfold pyUrlencodeDoseq
  apply joinAmp_noHash
  induction l with
  | nil => simp
  | cons kv rest ih =>
    intro p hp
    simp only [List.foldr_cons, List.mem_append] at hp
    rcases hp with hp | hp
    · obtain ⟨v, _, rfl⟩ := List.mem_map.mp hp
      exact noHash_append (pyQuotePlus_noHash _) (noHash_cons (by decide) (pyQuotePlus_noHash _))
    · exact ih p hp

theorem urlunsplitBase_noHash {netloc url : Chars} (h2 : '#' ∉ netloc) (h3 : '#' ∉ url) :
    '#' ∉ urlunsplitBase netloc url :=
  noHash_ite
    (noHash_cons (by decide) (noHash_cons (by decide)
      (noHash_append h2 (noHash_ite (noHash_cons (by decide) h3) h3))))
    h3

theorem urlunsplitSchemePart_noHash {scheme u : Chars} (h1 : '#' ∉ scheme) (h : '#' ∉ u) :
    '#' ∉ urlunsplitSchemePart scheme u :=
  noHash_ite (noHash_append h1 (noHash_cons (by decide) h)) h

theorem urlunsplitQueryPart_noHash {query u : Chars} (h4 : '#' ∉ query) (h : '#' ∉ u) :
    '#' ∉ urlunsplitQueryPart query u :=
  noHash_ite (noHash_append h (noHash_cons (by decide) h4)) h

theorem pyUrlunsplit_noHash {scheme netloc url query : Chars}
    (h1 : '#' ∉ scheme) (h2 : '#' ∉ netloc) (h3 : '#' ∉ url) (h4 : '#' ∉ query) :
    '#' ∉ pyUrlunsplit scheme netloc url query [] := by
  unfold pyUrlunsplit urlunsplitFragPart
  simp only [ne_eq, not_true_eq_false, if_false]
  exact urlunsplitQueryPart_noHash h4
    (urlunsplitSchemePart_noHash h1 (urlunsplitBase_noHash h2 h3))

theorem pyUrlunparse_noHash {scheme netloc url params query : Chars}
    (h1 : '#' ∉ scheme) (h2 : '#' ∉ netloc) (h3 : '#' ∉ url) (h4 : '#' ∉ params)
    (h5 : '#' ∉ query) : '#' ∉ pyUrlunparse scheme netloc url params query [] := by
  unfold pyUrlunparse
  split
  · exact pyUrlunsplit_noHash h1 h2 (noHash_append h3 (noHash_cons (by decide) h4)) h5
  · exact pyUrlunsplit_noHash h1 h2 h3 h5

theorem mem_rstripSlash {l : Chars} {c : Char} (h : c ∈ rstripSlash l) : c ∈ l := by
  unfold rstripSlash at h
  exact List.mem_reverse.mp (mem_of_dropWhile (List.mem_reverse.mp h))

theorem canonPortStrip_noHash {scheme netloc0 : Chars} (h : '#' ∉ netloc0) :
    '#' ∉ canonPortStrip scheme netloc0 :=
  noHash_ite (noHash_ite (fun hm => h (List.mem_of_mem_take hm)) h) h

theorem canonQueryPart_noHash (q : Chars) : '#' ∉ canonQueryPart q :=
  noHash_ite (pyUrlencodeDoseq_noHash _) (by simp)

theorem canonicalize_chars_noHash {u : Chars} (h : (pyUrlparse u).isOk = true) :
    '#' ∉ canonicalize_url_chars u := by
  unfold canonicalize_url_chars
  split
  · next heq => rw [heq] at h; simp [Except.isOk, Except.toBool] at h
  · next p heq =>
    obtain ⟨h1, h2, h3, h4, _⟩ := pyUrlparse_ok_noHash heq
    intro hmem
    exact pyUrlunparse_noHash (noHash_pyLower h1) (canonPortStrip_noHash (noHash_pyLower h2))
      h3 h4 (canonQueryPart_noHash p.query) (mem_rstripSlash hmem)

/-- C6 (amended): `canonicalize_url` identifies the two example URLs, and
for every input string on which the underlying URL parse succeeds the
canonical form contains no `#` fragment marker.  (As stated over all
inputs the claim fails: an unparseable URL passes through verbatim and may
keep its `#`; see the counterexample.) -/
theorem canonicalize_url_examples_and_no_hash :
    canonicalize_url "https://X.com/a?b=2&a=1" = canonicalize_url "https://x.com/a?a=1&b=2"
    ∧ ∀ s : String, (pyUrlparse s.data).isOk = true → '#' ∉ (canonicalize_url s).data := by
  refine ⟨by decide, fun s h => ?_⟩
  show '#' ∉ canonicalize_url_chars s.data
  exact canonicalize_chars_noHash h

/-- Witness for the amended C6 theorem at the first example URL. -/
theorem canonicalize_url_examples_and_no_hash_witness :
    (pyUrlparse "https://X.com/a?b=2&a=1".data).isOk = true
    ∧ '#' ∉ (canonicalize_url "https://X.com/a?b=2&a=1").data :=
  ⟨by decide, canonicalize_url_examples_and_no_hash.2 "https://X.com/a?b=2&a=1" (by decide)⟩

/-- C6 counterexample: on the input `"http://[#"` the URL parse raises
(`Invalid IPv6 URL`), `canonicalize_url` returns the input verbatim, and
the canonical form does contain a `#` — refuting the universally
quantified half of the claim as stated. -/
theorem canonicalize_url_hash_passthrough :
    canonicalize_url "http://[#" = "http://[#"
    ∧ '#' ∈ (canonicalize_url "http://[#").data :=
  ⟨by decide, by decide⟩

/-- C10: `canonicalize_url` is total, and whenever the underlying URL parse
fails (the `except` path) the input string is returned unchanged, so
unparseable URLs pass through verbatim as their own identity key. -/
theorem canonicalize_url_total_passthrough :
    ∀ s : String, (pyUrlparse s.data).isOk = false → canonicalize_url s = s := by
  intro s h
  unfold canonicalize_url canonicalize_url_chars
  split
  · cases s; rfl
  · next p heq => rw [heq] at h; simp [Except.isOk, Except.toBool] at h

/-- Witness for C10 at a concrete unparseable URL. -/
theorem canonicalize_url_total_passthrough_witness :
    (pyUrlparse "http://[?x".data).isOk = false
    ∧ canonicalize_url "http://[?x" = "http://[?x" :=
  ⟨by decide, canonicalize_url_total_passthrough "http://[?x" (by decide)⟩

theorem dedupStep_some_elim {trip : List (String × String × String)} {seen : DedupSeen}
    {a a1 : CandidateDict} {seen1 : DedupSeen}
    (h : dedupStep trip seen a = some (a1, seen1)) :
    a1 = (if a.extracted_content ≠ "" then
            { a with content_hash := compute_content_hash a.extracted_content } else a)
    ∧ ¬ (pyLowerStrip a.url ≠ "" ∧ pyLowerStrip a.url ∈ seen.urls)
    ∧ ¬ (pyLowerStrip a.canonical_url ≠ "" ∧ pyLowerStrip a.canonical_url ∈ seen.canonicals)
    ∧ ¬ (pyLowerStrip a.title ≠ "" ∧ pyLowerStrip a.source ≠ "" ∧ a.published_at ≠ ""
          ∧ (pyLowerStrip a.title, pyLowerStrip a.source, a.published_at) ∈ trip)
    ∧ ¬ (a.extracted_content ≠ "" ∧ compute_content_hash a.extracted_content ∈ seen.hashes)
    ∧ seen1 = { urls := if pyLowerStrip a.url ≠ "" then pyLowerStrip a.url :: seen.urls else seen.urls
                canonicals := if pyLowerStrip a.canonical_url ≠ "" then
                  pyLowerStrip a.canonical_url :: seen.canonicals else seen.canonicals
                hashes := if a.extracted_content ≠ "" then
                  compute_content_hash a.extracted_content :: seen.hashes else seen.hashes } := by
  unfold dedupStep at h
  simp only [] at h
  split at h
  · simp at h
  · next h1 =>
    split at h
    · simp at h
    · next h2 =>
      split at h
      · simp at h
      · next h3 =>
        split at h
        · simp at h
        · next h4 =>
          simp only [Option.some.injEq, Prod.mk.injEq] at h
          exact ⟨h.1.symm, h1, h2, h3, h4, h.2.symm⟩

theorem dedupStep_fields {trip : List (String × String × String)} {seen : DedupSeen}
    {a a1 : CandidateDict} {seen1 : DedupSeen}
    (h : dedupStep trip seen a = some (a1, seen1)) :
    a1.url = a.url ∧ a1.canonical_url = a.canonical_url
    ∧ a1.extracted_content = a.extracted_content := by
  obtain ⟨ha, -, -, -, -, -⟩ := dedupStep_some_elim h
  subst ha
  split <;> exact ⟨rfl, rfl, rfl⟩

theorem dedupStep_self {trip : List (String × String × String)} {seen : DedupSeen}
    {a a1 : CandidateDict} {seen1 : DedupSeen}
    (h : dedupStep trip seen a = some (a1, seen1)) :
    dedupStep trip seen a1 = some (a1, seen1) := by
  obtain ⟨ha, h1, h2, h3, h4, hs⟩ := dedupStep_some_elim h
  subst hs
  by_cases hec : a.extracted_content ≠ ""
  · rw [ha, if_pos hec]
    unfold dedupStep
    dsimp only
    rw [if_neg h1, if_neg h2, if_neg h3, if_neg h4, if_pos hec]
  · rw [ha, if_neg hec]
    unfold dedupStep
    dsimp only
    rw [if_neg h1, if_neg h2, if_neg h3, if_neg h4, if_neg hec]

theorem dedupKeep_idem (trip : List (String × String × String)) :
    ∀ (xs : List CandidateDict) (seen : DedupSeen),
      dedupKeep trip seen (dedupKeep trip seen xs) = dedupKeep trip seen xs := by
  intro xs
  induction xs with
  | nil => intro seen; simp [dedupKeep]
  | cons a rest ih =>
    intro seen
    cases hstep : dedupStep trip seen a with
    | none =>
      simp only [dedupKeep, hstep]
      exact ih seen
    | some pair =>
      obtain ⟨a1, seen1⟩ := pair
      simp only [dedupKeep, hstep, dedupStep_self hstep]
      exact congrArg (a1 :: ·) (ih seen1)

/-- C8: deduplication is idempotent — re-running `deduplicate_articles` on
its own output, over the same history of existing articles, returns the
output unchanged. -/
theorem deduplicate_articles_idempotent :
    ∀ (articles : List CandidateDict) (existing : List ArticleRow),
      deduplicate_articles (deduplicate_articles articles existing) existing
        = deduplicate_articles articles existing := by
  intro articles existing
  unfold deduplicate_articles
  exact dedupKeep_idem _ articles _

theorem dedupStep_not_seen {trip : List (String × String × String)} {seen : DedupSeen}
    {a a1 : CandidateDict} {seen1 : DedupSeen}
    (h : dedupStep trip seen a = some (a1, seen1)) :
    (pyLowerStrip a1.url ≠ "" → pyLowerStrip a1.url ∉ seen.urls)
    ∧ (pyLowerStrip a1.canonical_url ≠ "" → pyLowerStrip a1.canonical_url ∉ seen.canonicals)
    ∧ (a1.extracted_content ≠ "" → compute_content_hash a1.extracted_content ∉ seen.hashes) := by
  obtain ⟨hf1, hf2, hf3⟩ := dedupStep_fields h
  obtain ⟨-, h1, h2, -, h4, -⟩ := dedupStep_some_elim h
  rw [hf1, hf2, hf3]
  exact ⟨fun hne hmem => h1 ⟨hne, hmem⟩, fun hne hmem => h2 ⟨hne, hmem⟩,
         fun hne hmem => h4 ⟨hne, hmem⟩⟩

theorem dedupStep_added {trip : List (String × String × String)} {seen : DedupSeen}
    {a a1 : CandidateDict} {seen1 : DedupSeen}
    (h : dedupStep trip seen a = some (a1, seen1)) :
    (pyLowerStrip a1.url ≠ "" → pyLowerStrip a1.url ∈ seen1.urls)
    ∧ (pyLowerStrip a1.canonical_url ≠ "" → pyLowerStrip a1.canonical_url ∈ seen1.canonicals)
    ∧ (a1.extracted_content ≠ "" → compute_content_hash a1.extracted_content ∈ seen1.hashes) := by
  obtain ⟨hf1, hf2, hf3⟩ := dedupStep_fields h
  obtain ⟨-, -, -, -, -, hs⟩ := dedupStep_some_elim h
  subst hs
  rw [hf1, hf2, hf3]
  refine ⟨fun hne => ?_, fun hne => ?_, fun hne => ?_⟩ <;> simp [if_pos hne]

theorem dedupStep_seen_mono {trip : List (String × String × String)} {seen : DedupSeen}
    {a a1 : CandidateDict} {seen1 : DedupSeen}
    (h : dedupStep trip seen a = some (a1, seen1)) :
    (∀ x ∈ seen.urls, x ∈ seen1.urls) ∧ (∀ x ∈ seen.canonicals, x ∈ seen1.canonicals)
    ∧ (∀ x ∈ seen.hashes, x ∈ seen1.hashes) := by
  obtain ⟨-, -, -, -, -, hs⟩ := dedupStep_some_elim h
  subst hs
  refine ⟨fun x hx => ?_, fun x hx => ?_, fun x hx => ?_⟩ <;>
    · simp only []
      split <;> simp [hx]

theorem dedupKeep_not_seen (trip : List (String × String × String)) :
    ∀ (xs : List CandidateDict) (seen : DedupSeen) (b : CandidateDict),
      b ∈ dedupKeep trip seen xs →
      (pyLowerStrip b.url ≠ "" → pyLowerStrip b.url ∉ seen.urls)
      ∧ (pyLowerStrip b.canonical_url ≠ "" → pyLowerStrip b.canonical_url ∉ seen.canonicals)
      ∧ (b.extracted_content ≠ "" → compute_content_hash b.extracted_content ∉ seen.hashes) := by
  intro xs
  induction xs with
  | nil => intro seen b hb; simp [dedupKeep] at hb
  | cons a rest ih =>
    intro seen b hb
    cases hstep : dedupStep trip seen a with
    | none =>
      simp only [dedupKeep, hstep] at hb
      exact ih seen b hb
    | some pair =>
      obtain ⟨a1, seen1⟩ := pair
      simp only [dedupKeep, hstep, List.mem_cons] at hb
      rcases hb with rfl | hb
      · exact dedupStep_not_seen hstep
      · obtain ⟨m1, m2, m3⟩ := dedupStep_seen_mono hstep
        obtain ⟨n1, n2, n3⟩ := ih seen1 b hb
        exact ⟨fun hne hmem => n1 hne (m1 _ hmem), fun hne hmem => n2 hne (m2 _ hmem),
               fun hne hmem => n3 hne (m3 _ hmem)⟩

theorem dedupKeep_pairwise (trip : List (String × String × String)) :
    ∀ (xs : List CandidateDict) (seen : DedupSeen),
      (dedupKeep trip seen xs).Pairwise (fun x y => ¬ sharesBatchKey x y) := by
  intro xs
  induction xs with
  | nil => intro seen; simp [dedupKeep]
  | cons a rest ih =>
    intro seen
    cases hstep : dedupStep trip seen a with
    | none =>
      simp only [dedupKeep, hstep]
      exact ih seen
    | some pair =>
      obtain ⟨a1, seen1⟩ := pair
      simp only [dedupKeep, hstep]
      refine List.Pairwise.cons ?_ (ih seen1)
      intro b hb hshare
      obtain ⟨add1, add2, add3⟩ := dedupStep_added hstep
      obtain ⟨n1, n2, n3⟩ := dedupKeep_not_seen trip rest seen1 b hb
      rcases hshare with ⟨hne, heq⟩ | ⟨hne, heq⟩ | ⟨hne1, hne2, heq⟩
      · exact n1 (heq ▸ hne) (heq ▸ add1 hne)
      · exact n2 (heq ▸ hne) (heq ▸ add2 hne)
      · exact n3 hne2 (heq ▸ add3 hne1)

/-- C3 (amended): within one batch, the three dedup keys that the loop
does accumulate incrementally (exact normalized URL, canonical URL,
content-fingerprint hash) collapse later candidates onto the first
occurrence: no two kept candidates share any of those keys.  The
(title, source, date) triple is checked only against the persisted
history and is never added to the batch seen-set, so candidates agreeing
only on the triple are not collapsed (see the counterexample). -/
theorem dedup_batch_three_keys_pairwise :
    ∀ (articles : List CandidateDict) (existing : List ArticleRow),
      (deduplicate_articles articles existing).Pairwise (fun x y => ¬ sharesBatchKey x y) := by
  intro articles existing
  unfold deduplicate_articles
  exact dedupKeep_pairwise _ articles _

/-- C3 counterexample: two candidates with different URLs but the same
(title, source, published date) triple and no extracted content are both
kept by `deduplicate_articles` run over an empty history — the claimed
within-batch accumulation of the triple key does not happen. -/
theorem dedup_batch_triple_not_collapsed :
    tripleCandA.url ≠ tripleCandB.url
    ∧ pyLowerStrip tripleCandA.title = pyLowerStrip tripleCandB.title
    ∧ pyLowerStrip tripleCandA.source = pyLowerStrip tripleCandB.source
    ∧ tripleCandA.published_at = tripleCandB.published_at
    ∧ tripleCandA.published_at ≠ ""
    ∧ deduplicate_articles [tripleCandA, tripleCandB] [] = [tripleCandA, tripleCandB] := by
  refine ⟨by decide, by decide, by decide, by decide, by decide, by decide⟩

theorem generate_report_found {db : ReportDb} {d : Int} {r : ReportRow}
    (hf : db.reports.find? (fun x => x.report_date == d) = some r) :
    generate_report db d = (r, db) := by
  unfold generate_report
  rw [hf]

theorem generate_report_fresh {db : ReportDb} {d : Int}
    (hf : db.reports.find? (fun x => x.report_date == d) = none) :
    ∃ r : ReportRow, generate_report db d = (r, { db with reports := db.reports ++ [r] })
      ∧ r.report_date = d := by
  unfold generate_report
  rw [hf]
  exact ⟨_, rfl, rfl⟩

/-- C7: report generation is idempotent per date — a second call for the
same date returns the first call's report record and leaves the store
unchanged, and the at-most-one-report-per-date invariant is preserved. -/
theorem generate_report_idempotent_per_date :
    ∀ (db : ReportDb) (d : Int),
      ((generate_report (generate_report db d).2 d).1 = (generate_report db d).1
        ∧ (generate_report (generate_report db d).2 d).2 = (generate_report db d).2)
      ∧ (reportDateUnique db → reportDateUnique (generate_report db d).2) := by
  intro db d
  cases hf : db.reports.find? (fun x => x.report_date == d) with
  | some r =>
    have hg := generate_report_found hf
    refine ⟨⟨?_, ?_⟩, fun hu => ?_⟩
    · simp [hg]
    · simp [hg]
    · rw [hg]
      exact hu
  | none =>
    obtain ⟨r, hg, hrd⟩ := generate_report_fresh hf
    have hfind2 : ({ db with reports := db.reports ++ [r] } : ReportDb).reports.find?
        (fun x => x.report_date == d) = some r := by
      show (db.reports ++ [r]).find? (fun x => x.report_date == d) = some r
      rw [List.find?_append, hf]
      simp [List.find?, hrd]
    have hg2 := generate_report_found hfind2
    refine ⟨⟨?_, ?_⟩, fun hu => ?_⟩
    · simp [hg, hg2]
    · simp [hg, hg2]
    · rw [hg]
      show (db.reports ++ [r]).Pairwise (fun r1 r2 => r1.report_date ≠ r2.report_date)
      rw [List.pairwise_append]
      refine ⟨hu, by simp, fun x hx b hb => ?_⟩
      simp only [List.mem_singleton] at hb
      subst hb
      have := List.find?_eq_none.mp hf x hx
      simp only [beq_iff_eq] at this
      rw [hrd]
      exact this
  
/-- Witness for C7: the invariant hypothesis discharged on the empty store. -/
theorem generate_report_idempotent_per_date_witness :
    reportDateUnique { report_mentions := [], reports := [] }
    ∧ reportDateUnique (generate_report { report_mentions := [], reports := [] } 0).2 :=
  ⟨List.Pairwise.nil,
   (generate_report_idempotent_per_date { report_mentions := [], reports := [] } 0).2
     List.Pairwise.nil⟩

/-- C9: the content fingerprint is a function of the normalised content —
any two strings whose lower-cased word sequences coincide (equality up to
letter case and whitespace) receive identical SHA-256 fingerprints; taking
the two strings equal gives stability under repeated calls. -/
theorem content_hash_normalization_invariant :
    ∀ s t : String, pySplitWs (pyLower s.data) = pySplitWs (pyLower t.data) →
      compute_content_hash s = compute_content_hash t := by
  intro s t h
  unfold compute_content_hash
  rw [h]

/-- Witness for C9 at the spec's example pair. -/
theorem content_hash_normalization_invariant_witness :
    pySplitWs (pyLower "This is a test.".data) = pySplitWs (pyLower "this is a test.".data)
    ∧ compute_content_hash "This is a test." = compute_content_hash "this is a test." :=
  ⟨by decide, content_hash_normalization_invariant "This is a test." "this is a test." (by decide)⟩

/-- C5: the negative-term veto — whenever any nonempty negative term of
the subject matches with word boundaries, case-insensitively, anywhere in
the concatenated title/snippet/content text, `compute_confidence` returns
exactly 0 and no further scoring applies.  The concrete John Doe / actor
example of the spec is the witness. -/
theorem compute_confidence_negative_veto :
    ∀ (director : Director) (title snippet extracted_content article_state article_city : String),
      (∃ t ∈ director.get_all_negative_terms, t ≠ "" ∧
        wbSearch (pyLower t.data)
          (pyLower (title ++ " " ++ snippet ++ " " ++ extracted_content).data) = true) →
      compute_confidence director title snippet extracted_content article_state article_city
        = 0 := by
  intro d title snippet content st ci hex
  obtain ⟨t, htmem, htne, htwb⟩ := hex
  have hne : ¬ ((title ++ " " ++ snippet ++ " " ++ content) = ""
      ∨ d.get_all_negative_terms = []) := by
    rintro (hcon | hcon)
    · have hdata := congrArg String.data hcon
      simp [String.data_append] at hdata
    · rw [hcon] at htmem
      simp at htmem
  have hcheck : check_negative_terms (title ++ " " ++ snippet ++ " " ++ content)
      d.get_all_negative_terms = true := by
    unfold check_negative_terms
    rw [if_neg hne, List.any_eq_true]
    refine ⟨t, htmem, ?_⟩
    rw [Bool.and_eq_true]
    exact ⟨by simp [htne], htwb⟩
  unfold compute_confidence
  simp only [hcheck, if_true]

/-- Witness for C5: the subject John Doe with negative term `actor` scores
exactly 0 against the title `John Doe the actor wins award`. -/
theorem compute_confidence_negative_veto_witness :
    (∃ t ∈ johnDoeDirector.get_all_negative_terms, t ≠ "" ∧
      wbSearch (pyLower t.data)
        (pyLower ("John Doe the actor wins award" ++ " " ++ "" ++ " " ++ "").data) = true)
    ∧ compute_confidence johnDoeDirector "John Doe the actor wins award" "" "" "" "" = 0 :=
  ⟨by decide,
   compute_confidence_negative_veto johnDoeDirector "John Doe the actor wins award" "" "" "" ""
     (by decide)⟩

/-- C4 (code bug): the heuristic classifier at the two spec examples.  The
first example classifies NEGATIVE/HIGH/REGULATORY_ENFORCEMENT as claimed.
The second ("Director appointed to board, receives award", the exact
inputs of the repository's own `test_classify_heuristic_positive`) comes
out NEGATIVE/HIGH, not POSITIVE/LOW: the keyword `"ED"` is lowered to
`"ed"` and matched as a bare substring, which hits `appointed`/`received`. -/
theorem classify_heuristic_positive_title_divergence :
    ((classify_heuristic "Director arrested by ED in fraud case" "The director was arrested..."
        "The director was arrested by Enforcement Directorate in a fraud case." "en" "IN").sentiment
          = Sentiment.negative
      ∧ (classify_heuristic "Director arrested by ED in fraud case" "The director was arrested..."
        "The director was arrested by Enforcement Directorate in a fraud case." "en" "IN").severity
          = Severity.high
      ∧ (classify_heuristic "Director arrested by ED in fraud case" "The director was arrested..."
        "The director was arrested by Enforcement Directorate in a fraud case." "en" "IN").category
          = Category.regulatory_enforcement)
    ∧ ((classify_heuristic "Director appointed to board, receives award"
        "The director was appointed..."
        "The director was appointed to the board and received an award." "en" "IN").sentiment
          = Sentiment.negative
      ∧ (classify_heuristic "Director appointed to board, receives award"
        "The director was appointed..."
        "The director was appointed to the board and received an award." "en" "IN").severity
          = Severity.high) := by
  decide

theorem articleRow_set_status_self (x : ArticleRow) (s e : String)
    (hs : x.fetch_status = s) (he : x.fetch_error = e) :
    ({ x with fetch_status := s, fetch_error := e } : ArticleRow) = x := by
  cases x
  simp_all

theorem resolveOrCreate_state {env : WorkerEnv} {db : Db} {a : CandidateDict} {cu : String} :
    (resolveOrCreateArticle env db a cu).2.mentions = db.mentions
    ∧ (resolveOrCreateArticle env db a cu).2.directors = db.directors := by
  unfold resolveOrCreateArticle
  split
  · exact ⟨rfl, rfl⟩
  · exact ⟨rfl, rfl⟩

theorem resolveOrCreate_find {env : WorkerEnv} {db : Db} {a : CandidateDict} {cu : String} :
    findArticleByCanonical (resolveOrCreateArticle env db a cu).2 cu
      = some (resolveOrCreateArticle env db a cu).1 := by
  unfold resolveOrCreateArticle
  cases hf : findArticleByCanonical db cu with
  | some existing => simp [hf]
  | none =>
    simp only [hf]
    unfold findArticleByCanonical at hf ⊢
    show (db.articles ++ [_]).find? _ = some _
    rw [List.find?_append, hf]
    simp [List.find?]

theorem find?_update_id {p : ArticleRow → Bool} {x x' : ArticleRow}
    (hp : p x' = true) (hid : x'.id = x.id) :
    ∀ l : List ArticleRow, l.find? p = some x →
      (l.map (fun y => if y.id = x'.id then x' else y)).find? p = some x' := by
  intro l
  induction l with
  | nil => intro h; simp at h
  | cons y ys ih =>
    intro h
    by_cases hy : p y = true
    · rw [List.find?_cons_of_pos _ hy] at h
      injection h with h
      subst h
      have hhead : (if y.id = x'.id then x' else y) = x' := if_pos (by rw [hid])
      simp only [List.map_cons, hhead]
      exact List.find?_cons_of_pos _ hp
    · rw [List.find?_cons_of_neg _ (by simpa using hy)] at h
      by_cases hidy : y.id = x'.id
      · simp only [List.map_cons, if_pos hidy]
        exact List.find?_cons_of_pos _ hp
      · simp only [List.map_cons, if_neg hidy]
        rw [List.find?_cons_of_neg _ (by simpa using hy)]
        exact ih h

theorem fetchStage_state {env : WorkerEnv} {db : Db} {article : ArticleRow} :
    (fetchStage env db article).2.1.mentions = db.mentions
    ∧ (fetchStage env db article).2.1.directors = db.directors := by
  unfold fetchStage
  split
  · exact ⟨rfl, rfl⟩
  · simp only []
    split_ifs <;> exact ⟨rfl, rfl⟩

theorem fetchStage_fields {env : WorkerEnv} {db : Db} {article : ArticleRow} :
    (fetchStage env db article).1.id = article.id
    ∧ (fetchStage env db article).1.url = article.url
    ∧ (fetchStage env db article).1.canonical_url = article.canonical_url
    ∧ (fetchStage env db article).1.title = article.title
    ∧ (fetchStage env db article).1.snippet = article.snippet
    ∧ (fetchStage env db article).1.state = article.state
    ∧ (fetchStage env db article).1.city = article.city := by
  unfold fetchStage
  split
  · exact ⟨rfl, rfl, rfl, rfl, rfl, rfl, rfl⟩
  · simp only []
    split_ifs <;> exact ⟨rfl, rfl, rfl, rfl, rfl, rfl, rfl⟩

theorem fetchStage_shape {env : WorkerEnv} {db : Db} {article : ArticleRow} :
    ((fetchStage env db article).2.1 = db ∧ (fetchStage env db article).1 = article)
    ∨ (fetchStage env db article).2.1 = updateArticle db (fetchStage env db article).1 := by
  unfold fetchStage
  split
  · exact Or.inl ⟨rfl, rfl⟩
  · simp only []
    split_ifs <;> exact Or.inr rfl

theorem fetchStage_find {env : WorkerEnv} {db : Db} {article : ArticleRow} {cu : String}
    (hf : findArticleByCanonical db cu = some article) :
    findArticleByCanonical (fetchStage env db article).2.1 cu
      = some (fetchStage env db article).1 := by
  have hf' : db.articles.find? (fun x => x.canonical_url == cu) = some article := hf
  have hp0 : (article.canonical_url == cu) = true := by
    have := List.find?_some hf'
    simpa using this
  obtain ⟨hid, -, hcanon, -⟩ := @fetchStage_fields env db article
  rcases @fetchStage_shape env db article with ⟨h1, h2⟩ | hsh
  · rw [h1, h2]
    exact hf
  · rw [hsh]
    unfold findArticleByCanonical updateArticle at *
    exact find?_update_id (by rw [hcanon]; exact hp0) hid db.articles hf

theorem fetchStage_out_char {env : WorkerEnv} {db : Db} {article : ArticleRow} :
    ((fetchStage env db article).1.extracted_content.isSome = true
      ∧ (fetchStage env db article).2.2 = false)
    ∨ ((fetchStage env db article).1.extracted_content = none
        ∧ (fetchStage env db article).1.url = article.url
        ∧ (fetchStage env db article).1.fetch_status = "failed"
        ∧ ((fetchStage env db article).1.fetch_error = (env.fetch_and_extract article.url).2.1
            ∧ (env.fetch_and_extract article.url).2.1 ≠ ""
            ∧ (fetchStage env db article).2.2 = true
          ∨ (fetchStage env db article).1.fetch_error = "No content extracted"
            ∧ (env.fetch_and_extract article.url).1 = ""
            ∧ (env.fetch_and_extract article.url).2.1 = ""
            ∧ (fetchStage env db article).2.2 = false)) := by
  unfold fetchStage
  split
  · next e heq => exact Or.inl ⟨by simp [heq], rfl⟩
  · next heq =>
    simp only []
    by_cases h1 : (env.fetch_and_extract article.url).2.1 ≠ ""
    · simp only [if_pos h1]
      refine Or.inr ⟨heq, ?_, ?_, Or.inl ⟨?_, h1, ?_⟩⟩ <;> simp
    · by_cases h2 : (env.fetch_and_extract article.url).1 ≠ ""
      · simp only [if_neg h1, if_pos h2]
        refine Or.inl ⟨?_, ?_⟩ <;> simp
      · simp only [if_neg h1, if_neg h2]
        refine Or.inr ⟨heq, ?_, ?_, Or.inr ⟨?_, ?_, ?_, ?_⟩⟩ <;> simp_all

theorem fetchStage_replay {env : WorkerEnv} {db db' : Db} {article : ArticleRow} :
    (fetchStage env db' (fetchStage env db article).1).1 = (fetchStage env db article).1
    ∧ (fetchStage env db' (fetchStage env db article).1).2.2 = (fetchStage env db article).2.2 := by
  rcases @fetchStage_out_char env db article with ⟨hsome, hflag⟩ | ⟨hnone, hurl, hstat, hrest⟩
  · obtain ⟨e, he⟩ := Option.isSome_iff_exists.mp hsome
    rw [hflag]
    generalize hA : (fetchStage env db article).1 = A at he ⊢
    have hrep : fetchStage env db' A = (A, db', false) := by
      unfold fetchStage
      rw [he]
    rw [hrep]
    exact ⟨rfl, rfl⟩
  · rcases hrest with ⟨herr, hne, hflag⟩ | ⟨herr, htext, hok, hflag⟩
    · rw [hflag]
      generalize hA : (fetchStage env db article).1 = A at hnone hurl hstat herr ⊢
      have hAA : ({ A with fetch_status := "failed", fetch_error := (env.fetch_and_extract A.url).2.1 } : ArticleRow) = A := by
        refine articleRow_set_status_self A _ _ hstat ?_
        rw [herr, hurl]
      rw [hnone] at hAA
      have hrep : fetchStage env db' A = (A, updateArticle db' A, true) := by
        unfold fetchStage
        rw [hnone]
        simp only []
        rw [if_pos (by rw [hurl]; exact hne), hAA]
      rw [hrep]
      exact ⟨rfl, rfl⟩
    · rw [hflag]
      generalize hA : (fetchStage env db article).1 = A at hnone hurl hstat herr ⊢
      have hAA : ({ A with fetch_status := "failed", fetch_error := "No content extracted" } : ArticleRow) = A :=
        articleRow_set_status_self A _ _ hstat herr
      rw [hnone] at hAA
      have hrep : fetchStage env db' A = (A, updateArticle db' A, false) := by
        unfold fetchStage
        rw [hnone]
        simp only []
        rw [if_neg (by rw [hurl, hok]; simp), if_neg (by rw [hurl, htext]; simp), hAA]
      rw [hrep]
      exact ⟨rfl, rfl⟩

theorem resolve_director_single {d d' : Director} {t s e : String} {mc c : ℚ} {st ci : String}
    (h : resolve_director [d] t s e mc st ci = some (d', c)) : d' = d := by
  unfold resolve_director at h
  simp only [List.foldl_cons, List.foldl_nil] at h
  split_ifs at h with h1 h2 <;> simp at h
  exact h.1.symm

theorem mentionPhase_state {env : WorkerEnv} {db : Db} {director : Director} {article : ArticleRow} :
    (mentionPhase env db director article).1.articles = db.articles
    ∧ (mentionPhase env db director article).1.directors = db.directors := by
  unfold mentionPhase
  split
  · exact ⟨rfl, rfl⟩
  · split_ifs
    · exact ⟨rfl, rfl⟩
    · exact ⟨rfl, rfl⟩

theorem mentionInsert_mentions {env : WorkerEnv} {db : Db} {md : Director} {c : ℚ}
    {article : ArticleRow} :
    (mentionInsert env db md c article).1.mentions
      = db.mentions ++ [mentionBuild env db md c article] := rfl

theorem mentionInsert_alerts {env : WorkerEnv} {db : Db} {md : Director} {c : ℚ}
    {article : ArticleRow} :
    (mentionInsert env db md c article).2 = []
    ∨ ((mentionInsert env db md c article).2 = [(mentionBuild env db md c article).id]
        ∧ (mentionBuild env db md c article).severity = Severity.high
        ∧ (mentionBuild env db md c article).confidence ≥ env.confidence_threshold_alert
        ∧ (mentionBuild env db md c article).alert_sent = false) := by
  unfold mentionInsert
  dsimp only
  split_ifs with h
  · exact Or.inr ⟨rfl, h.1, h.2.1, h.2.2⟩
  · exact Or.inl rfl

theorem mentionPhase_out {env : WorkerEnv} {db : Db} {director : Director} {article : ArticleRow} :
    (resolveForArticle director article = none ∧ mentionPhase env db director article = (db, []))
    ∨ (∃ c : ℚ, ∃ m : MentionRow, resolveForArticle director article = some (director, c)
        ∧ m ∈ db.mentions ∧ m.director_id = director.id ∧ m.article_id = article.id
        ∧ mentionPhase env db director article = (db, []))
    ∨ (∃ c : ℚ, resolveForArticle director article = some (director, c)
        ∧ db.mentions.any (fun m => m.director_id == director.id && m.article_id == article.id)
            = false
        ∧ mentionPhase env db director article = mentionInsert env db director c article) := by
  cases hres : resolveForArticle director article with
  | none =>
    refine Or.inl ⟨rfl, ?_⟩
    unfold mentionPhase
    rw [hres]
  | some p =>
    obtain ⟨md, c⟩ := p
    have hmd : md = director := by
      have h' := hres
      unfold resolveForArticle at h'
      exact resolve_director_single h'
    subst hmd
    by_cases hany : db.mentions.any
        (fun m => m.director_id == md.id && m.article_id == article.id) = true
    · obtain ⟨m, hm, hb⟩ := List.any_eq_true.mp hany
      have hb' : m.director_id = md.id ∧ m.article_id = article.id := by simpa using hb
      refine Or.inr (Or.inl ⟨c, m, rfl, hm, hb'.1, hb'.2, ?_⟩)
      unfold mentionPhase
      rw [hres]
      dsimp only
      rw [if_pos hany]
    · refine Or.inr (Or.inr ⟨c, rfl, by simpa using hany, ?_⟩)
      unfold mentionPhase
      rw [hres]
      dsimp only
      rw [if_neg hany]

theorem mentionPhase_ensures {env : WorkerEnv} {db : Db} {director : Director}
    {article : ArticleRow} :
    resolveForArticle director article = none
    ∨ ∃ m, m ∈ (mentionPhase env db director article).1.mentions
        ∧ m.director_id = director.id ∧ m.article_id = article.id := by
  rcases @mentionPhase_out env db director article with
    ⟨hres, heq⟩ | ⟨c, m, hres, hm, h1, h2, heq⟩ | ⟨c, hres, hany, heq⟩
  · exact Or.inl hres
  · refine Or.inr ⟨m, ?_, h1, h2⟩
    rw [heq]
    exact hm
  · refine Or.inr ⟨mentionBuild env db director c article, ?_, rfl, rfl⟩
    rw [heq, mentionInsert_mentions]
    exact List.mem_append_right _ (List.mem_singleton_self _)

theorem mentionPhase_after {env : WorkerEnv} {db db2 : Db} {director : Director}
    {article : ArticleRow}
    (h : ∀ m, m ∈ (mentionPhase env db director article).1.mentions → m ∈ db2.mentions) :
    mentionPhase env db2 director article = (db2, []) := by
  rcases @mentionPhase_out env db2 director article with
    ⟨_, heq⟩ | ⟨_, _, _, _, _, _, heq⟩ | ⟨c, hres, hany, heq⟩
  · exact heq
  · exact heq
  · exfalso
    rcases @mentionPhase_ensures env db director article with hnone | ⟨m, hm, h1, h2⟩
    · rw [hres] at hnone
      cases hnone
    · have hm2 := h m hm
      have hax : db2.mentions.any
          (fun x => x.director_id == director.id && x.article_id == article.id) = true :=
        List.any_eq_true.mpr ⟨m, hm2, by simp [h1, h2]⟩
      rw [hany] at hax
      cases hax

theorem mentionPhase_pair_unique {env : WorkerEnv} {db : Db} {director : Director}
    {article : ArticleRow} (hu : mentionPairUnique db) :
    mentionPairUnique (mentionPhase env db director article).1 := by
  rcases @mentionPhase_out env db director article with
    ⟨_, heq⟩ | ⟨_, _, _, _, _, _, heq⟩ | ⟨c, hres, hany, heq⟩
  · rw [heq]; exact hu
  · rw [heq]; exact hu
  · rw [heq]
    unfold mentionPairUnique at hu ⊢
    rw [mentionInsert_mentions, List.pairwise_append]
    refine ⟨hu, by simp, ?_⟩
    intro x hx y hy
    simp only [List.mem_singleton] at hy
    subst hy
    rintro ⟨e1, e2⟩
    have f1 : x.director_id = director.id := e1.trans rfl
    have f2 : x.article_id = article.id := e2.trans rfl
    have hx' : (x.director_id == director.id && x.article_id == article.id) = true := by
      simp [f1, f2]
    have hax : db.mentions.any
        (fun m => m.director_id == director.id && m.article_id == article.id) = true :=
      List.any_eq_true.mpr ⟨x, hx, hx'⟩
    rw [hany] at hax
    cases hax

theorem mentionPhase_alert_shape {env : WorkerEnv} {db : Db} {director : Director}
    {article : ArticleRow} :
    ∀ mid ∈ (mentionPhase env db director article).2,
      ∃ m, m ∈ (mentionPhase env db director article).1.mentions
        ∧ m.id = mid ∧ m.severity = Severity.high
        ∧ m.confidence ≥ env.confidence_threshold_alert ∧ m.alert_sent = false := by
  intro mid hmid
  rcases @mentionPhase_out env db director article with
    ⟨_, heq⟩ | ⟨_, _, _, _, _, _, heq⟩ | ⟨c, hres, hany, heq⟩
  · rw [heq] at hmid; simp at hmid
  · rw [heq] at hmid; simp at hmid
  · rw [heq] at hmid ⊢
    rcases @mentionInsert_alerts env db director c article with hal | ⟨hal, hsev, hconf, hsent⟩
    · rw [hal] at hmid; simp at hmid
    · rw [hal] at hmid
      simp only [List.mem_singleton] at hmid
      refine ⟨mentionBuild env db director c article, ?_, hmid.symm, hsev, hconf, hsent⟩
      rw [mentionInsert_mentions]
      exact List.mem_append_right _ (List.mem_singleton_self _)

theorem process_article_none {env : WorkerEnv} {db : Db} {did : Nat} {a : CandidateDict}
    (hd : db.directors.find? (fun d => d.id == did) = none) :
    process_article env db did a = (db, []) := by
  unfold process_article
  rw [hd]

theorem process_article_some {env : WorkerEnv} {db : Db} {did : Nat} {a : CandidateDict}
    {director : Director}
    (hd : db.directors.find? (fun d => d.id == did) = some director) :
    process_article env db did a =
      (if (fetchStage env (resolveOrCreateArticle env db a (paCu a)).2
              (resolveOrCreateArticle env db a (paCu a)).1).2.2 then
        ((fetchStage env (resolveOrCreateArticle env db a (paCu a)).2
            (resolveOrCreateArticle env db a (paCu a)).1).2.1, [])
      else
        mentionPhase env
          (fetchStage env (resolveOrCreateArticle env db a (paCu a)).2
              (resolveOrCreateArticle env db a (paCu a)).1).2.1
          director
          (fetchStage env (resolveOrCreateArticle env db a (paCu a)).2
              (resolveOrCreateArticle env db a (paCu a)).1).1) := by
  unfold process_article
  rw [hd]

theorem resolveOrCreate_existing {env : WorkerEnv} {db : Db} {a : CandidateDict} {cu : String}
    {x : ArticleRow} (h : findArticleByCanonical db cu = some x) :
    resolveOrCreateArticle env db a cu = (x, db) := by
  unfold resolveOrCreateArticle
  rw [h]

theorem process_article_replay_core {env : WorkerEnv} {db : Db} {did : Nat} {a : CandidateDict}
    {director : Director}
    (hd : db.directors.find? (fun d => d.id == did) = some director) :
    (process_article env (process_article env db did a).1 did a).1.mentions
      = (process_article env db did a).1.mentions
    ∧ (mentionPairUnique db → mentionPairUnique (process_article env db did a).1) := by
  obtain ⟨A0, dbA, hrc⟩ : ∃ A0 dbA, resolveOrCreateArticle env db a (paCu a) = (A0, dbA) :=
    ⟨_, _, rfl⟩
  have hrun1 := @process_article_some env db did a director hd
  rw [hrc] at hrun1
  dsimp only at hrun1
  have hstateA : dbA.mentions = db.mentions ∧ dbA.directors = db.directors := by
    have h := @resolveOrCreate_state env db a (paCu a)
    rw [hrc] at h
    exact h
  have hfindA : findArticleByCanonical dbA (paCu a) = some A0 := by
    have h := @resolveOrCreate_find env db a (paCu a)
    rw [hrc] at h
    exact h
  obtain ⟨A1, dbF, flag, hfs⟩ : ∃ A1 dbF flag, fetchStage env dbA A0 = (A1, dbF, flag) :=
    ⟨_, _, _, rfl⟩
  have hstateF : dbF.mentions = dbA.mentions ∧ dbF.directors = dbA.directors := by
    have h := @fetchStage_state env dbA A0
    rw [hfs] at h
    exact h
  have hfindF : findArticleByCanonical dbF (paCu a) = some A1 := by
    have h := @fetchStage_find env dbA A0 (paCu a) hfindA
    rw [hfs] at h
    exact h
  have hreplay : ∀ db' : Db, (fetchStage env db' A1).1 = A1
      ∧ (fetchStage env db' A1).2.2 = flag := by
    intro db'
    have h := @fetchStage_replay env dbA db' A0
    rw [hfs] at h
    exact h
  rw [hfs] at hrun1
  dsimp only at hrun1
  by_cases hflag : flag = true
  · rw [if_pos hflag] at hrun1
    have hfst : (process_article env db did a).1 = dbF := by rw [hrun1]
    constructor
    · have hd2 : dbF.directors.find? (fun d => d.id == did) = some director := by
        rw [hstateF.2, hstateA.2]
        exact hd
      have hrun2 := @process_article_some env dbF did a director hd2
      have hrc2 : resolveOrCreateArticle env dbF a (paCu a) = (A1, dbF) :=
        @resolveOrCreate_existing env dbF a (paCu a) A1 hfindF
      rw [hrc2] at hrun2
      dsimp only at hrun2
      rw [(hreplay dbF).2, if_pos hflag] at hrun2
      rw [hfst, hrun2]
      dsimp only
      exact (@fetchStage_state env dbF A1).1
    · intro hu
      rw [hfst]
      unfold mentionPairUnique at hu ⊢
      rw [hstateF.1, hstateA.1]
      exact hu
  · rw [if_neg hflag] at hrun1
    have hfst : (process_article env db did a).1 = (mentionPhase env dbF director A1).1 := by
      rw [hrun1]
    have hstateM : (mentionPhase env dbF director A1).1.articles = dbF.articles
        ∧ (mentionPhase env dbF director A1).1.directors = dbF.directors :=
      @mentionPhase_state env dbF director A1
    constructor
    · have hd2 : (mentionPhase env dbF director A1).1.directors.find? (fun d => d.id == did)
          = some director := by
        rw [hstateM.2, hstateF.2, hstateA.2]
        exact hd
      have hrun2 := @process_article_some env (mentionPhase env dbF director A1).1 did a
        director hd2
      have hfind2 : findArticleByCanonical (mentionPhase env dbF director A1).1 (paCu a)
          = some A1 := by
        unfold findArticleByCanonical at hfindF ⊢
        rw [hstateM.1]
        exact hfindF
      have hrc2 : resolveOrCreateArticle env (mentionPhase env dbF director A1).1 a (paCu a)
          = (A1, (mentionPhase env dbF director A1).1) :=
        @resolveOrCreate_existing env (mentionPhase env dbF director A1).1 a (paCu a) A1 hfind2
      rw [hrc2] at hrun2
      dsimp only at hrun2
      rw [(hreplay (mentionPhase env dbF director A1).1).2, if_neg hflag,
        (hreplay (mentionPhase env dbF director A1).1).1] at hrun2
      have hmem : ∀ m, m ∈ (mentionPhase env dbF director A1).1.mentions →
          m ∈ (fetchStage env (mentionPhase env dbF director A1).1 A1).2.1.mentions := by
        intro m hm
        rw [(@fetchStage_state env (mentionPhase env dbF director A1).1 A1).1]
        exact hm
      have hafter :=
        @mentionPhase_after env dbF (fetchStage env (mentionPhase env dbF director A1).1 A1).2.1
          director A1 hmem
      rw [hafter] at hrun2
      rw [hfst, hrun2]
      dsimp only
      exact (@fetchStage_state env (mentionPhase env dbF director A1).1 A1).1
    · intro hu
      rw [hfst]
      refine @mentionPhase_pair_unique env dbF director A1 ?_
      unfold mentionPairUnique at hu ⊢
      rw [hstateF.1, hstateA.1]
      exact hu

/-- C1: at most one Mention row exists per (subject, article) pair.
`process_article` preserves the pair-uniqueness invariant, and a second
run on the same `(director_id, article_dict)` input — a retried or
replayed job — hits the mention existence check
(`tasks.py` lines 259-266) and leaves the mention table exactly as the
first run left it. -/
theorem process_article_mention_idempotent (env : WorkerEnv) (db : Db) (did : Nat)
    (a : CandidateDict) (hu : mentionPairUnique db) :
    mentionPairUnique (process_article env db did a).1
    ∧ (process_article env (process_article env db did a).1 did a).1.mentions
        = (process_article env db did a).1.mentions := by
  cases hd : db.directors.find? (fun d => d.id == did) with
  | none =>
    have h1 := @process_article_none env db did a hd
    have hfst : (process_article env db did a).1 = db := by rw [h1]
    refine ⟨?_, ?_⟩
    · rw [hfst]
      exact hu
    · rw [hfst]
      rw [hfst]
  | some director =>
    obtain ⟨hmen, hup⟩ := @process_article_replay_core env db did a director hd
    exact ⟨hup hu, hmen⟩

/-- Closed witness for `process_article_mention_idempotent`: a store with
one subject and an empty mention table, and a candidate whose fetch
fails. -/
theorem process_article_mention_idempotent_witness :
    mentionPairUnique smithDb
    ∧ (mentionPairUnique (process_article oracleFetchFails smithDb 1 smithCandidate).1
      ∧ (process_article oracleFetchFails
            (process_article oracleFetchFails smithDb 1 smithCandidate).1
            1 smithCandidate).1.mentions
          = (process_article oracleFetchFails smithDb 1 smithCandidate).1.mentions) :=
  ⟨List.Pairwise.nil,
   process_article_mention_idempotent oracleFetchFails smithDb 1 smithCandidate
     List.Pairwise.nil⟩

theorem find?_map_setflag {mid : Nat} :
    ∀ (l : List MentionRow) (m : MentionRow), l.find? (fun x => x.id == mid) = some m →
      (l.map (fun x => if x.id == mid then { x with alert_sent := true } else x)).find?
        (fun x => x.id == mid) = some { m with alert_sent := true } := by
  intro l
  induction l with
  | nil =>
    intro m h
    simp at h
  | cons y ys ih =>
    intro m h
    by_cases hy : (y.id == mid) = true
    · have hcons : (y :: ys).find? (fun x => x.id == mid) = some y :=
        List.find?_cons_of_pos _ hy
      rw [hcons] at h
      injection h with h
      subst h
      simp only [List.map_cons, if_pos hy]
      exact List.find?_cons_of_pos _ hy
    · have hcons : (y :: ys).find? (fun x => x.id == mid) = ys.find? (fun x => x.id == mid) :=
        List.find?_cons_of_neg _ (by simpa using hy)
      rw [hcons] at h
      simp only [List.map_cons, if_neg hy]
      have hcons2 : (y :: ys.map
            (fun x => if x.id == mid then { x with alert_sent := true } else x)).find?
            (fun x => x.id == mid)
          = (ys.map (fun x => if x.id == mid then { x with alert_sent := true } else x)).find?
            (fun x => x.id == mid) :=
        List.find?_cons_of_neg _ (by simpa using hy)
      rw [hcons2]
      exact ih m h

/-- C2 (amended): what `send_alert`/`process_article` actually guarantee.
(i) `process_article` enqueues an alert only for a mention with HIGH
severity, confidence at or above the configured threshold, and an unset
alert flag; (ii) once a `send_alert` attempt completes (reaches the
`alert_sent` commit), any retried run sends zero further emails; (iii) a
`send_alert` run on a mention whose flag is already set sends nothing.
The original claim's stronger guarantee — no second send even when the
task crashes between `send_alert_email` and the flag commit — does not
hold, because the flag is committed only after the send
(`tasks.py` lines 331-346); see `send_alert_crash_retry_double_send`. -/
theorem send_alert_at_most_once_amended :
    (∀ (env : WorkerEnv) (db : Db) (did : Nat) (a : CandidateDict),
      ∀ mid ∈ (process_article env db did a).2,
        ∃ m, m ∈ (process_article env db did a).1.mentions
          ∧ m.id = mid ∧ m.severity = Severity.high
          ∧ m.confidence ≥ env.confidence_threshold_alert ∧ m.alert_sent = false)
    ∧ (∀ (db : Db) (mid : Nat) (run : AlertRun),
        (send_alert (send_alert db mid AlertRun.completed).1 mid run).2 = 0)
    ∧ (∀ (db : Db) (mid : Nat) (run : AlertRun) (m : MentionRow),
        db.mentions.find? (fun x => x.id == mid) = some m → m.alert_sent = true →
        (send_alert db mid run).2 = 0) := by
  refine ⟨?_, ?_, ?_⟩
  · intro env db did a mid hmid
    cases hd : db.directors.find? (fun d => d.id == did) with
    | none =>
      rw [@process_article_none env db did a hd] at hmid
      simp at hmid
    | some director =>
      have hrun1 := @process_article_some env db did a director hd
      by_cases hflag : (fetchStage env (resolveOrCreateArticle env db a (paCu a)).2
          (resolveOrCreateArticle env db a (paCu a)).1).2.2 = true
      · rw [if_pos hflag] at hrun1
        rw [hrun1] at hmid
        simp at hmid
      · rw [if_neg hflag] at hrun1
        rw [hrun1] at hmid ⊢
        exact @mentionPhase_alert_shape env _ director _ mid hmid
  · intro db mid run
    cases hf : db.mentions.find? (fun x => x.id == mid) with
    | none =>
      have h1 : send_alert db mid AlertRun.completed = (db, 0) := by
        unfold send_alert
        rw [hf]
      rw [h1]
      show (send_alert db mid run).2 = 0
      unfold send_alert
      rw [hf]
    | some m =>
      by_cases hs : m.alert_sent = true
      · have h1 : send_alert db mid AlertRun.completed = (db, 0) := by
          unfold send_alert
          rw [hf]
          dsimp only
          rw [if_pos hs]
        rw [h1]
        show (send_alert db mid run).2 = 0
        unfold send_alert
        rw [hf]
        dsimp only
        rw [if_pos hs]
      · have h1 : (send_alert db mid AlertRun.completed).1.mentions
            = db.mentions.map (fun x => if x.id == mid then { x with alert_sent := true } else x) := by
          unfold send_alert
          rw [hf]
          dsimp only
          rw [if_neg hs]
        have hfind2 : (db.mentions.map
              (fun x => if x.id == mid then { x with alert_sent := true } else x)).find?
            (fun x => x.id == mid) = some { m with alert_sent := true } :=
          find?_map_setflag db.mentions m hf
        generalize hD : (send_alert db mid AlertRun.completed).1 = D
        rw [hD] at h1
        unfold send_alert
        rw [h1, hfind2]
        dsimp only
        have hcond : ({ m with alert_sent := true } : MentionRow).alert_sent = true := rfl
        rw [if_pos hcond]
  · intro db mid run m hf hs
    unfold send_alert
    rw [hf]
    dsimp only
    rw [if_pos hs]

/-- C2 counterexample: one attempt of `send_alert` crashes after
`send_alert_email(mention)` but before the `alert_sent` commit; the
retried attempt finds the flag still unset and emails again — two sends
for one mention. -/
theorem send_alert_crash_retry_double_send :
    (send_alert alertDb 1 AlertRun.crashAfterSend).2 = 1
    ∧ (send_alert (send_alert alertDb 1 AlertRun.crashAfterSend).1 1 AlertRun.completed).2
        = 1 := by
  decide

section
set_option allowUnsafeReducibility true
attribute [local semireducible] Rat.add Rat.sub Rat.neg Rat.mul Rat.inv Rat.div Rat.ofScientific

/-- Closed witness for `send_alert_at_most_once_amended`: a concrete run
that enqueues an alert, a completed send followed by a crashing retry,
and a run over an already-flagged mention. -/
theorem send_alert_at_most_once_amended_witness :
    ((1 ∈ (process_article oracleEmptyText smithDb 1 smithCandidate).2)
      ∧ ∃ m, m ∈ (process_article oracleEmptyText smithDb 1 smithCandidate).1.mentions
          ∧ m.id = 1 ∧ m.severity = Severity.high
          ∧ m.confidence ≥ oracleEmptyText.confidence_threshold_alert ∧ m.alert_sent = false)
    ∧ ((send_alert (send_alert alertDb 1 AlertRun.completed).1 1 AlertRun.crashAfterSend).2 = 0)
    ∧ (alertDbSent.mentions.find? (fun x => x.id == 1) = some sentMention
        ∧ sentMention.alert_sent = true
        ∧ (send_alert alertDbSent 1 AlertRun.completed).2 = 0) :=
  ⟨⟨by decide,
    send_alert_at_most_once_amended.1 oracleEmptyText smithDb 1 smithCandidate 1 (by decide)⟩,
   send_alert_at_most_once_amended.2.1 alertDb 1 AlertRun.crashAfterSend,
   ⟨by decide, by decide,
    send_alert_at_most_once_amended.2.2 alertDbSent 1 AlertRun.completed sentMention
      (by decide) (by decide)⟩⟩

end
